import Mathlib

/-!
# scripts/setup-mongodb.js

A shallow embedding of the MongoDB provisioning script.  The script is a
straight-line sequence of calls on the shell's `db` object, one `forEach` over
each `getIndexes()` result, and one `try`/`catch` around the seed insert.

* `Script` is the monad the script runs in: it threads the database, the lines
  printed so far and the log of database calls, and an uncaught exception stops
  the run.
* `Engine` is the interface of the `db` object.  The script is embedded over an
  arbitrary engine (`script`), so statements about its control flow hold for
  every behaviour of the database.
* `mongo` is a concrete engine, modelled from the specification, on which the
  end-to-end scenarios are evaluated.
-/

namespace SetupMongodb

/-! ## JavaScript values -/

/-- JavaScript values that occur as document fields and as the `code` of a
thrown error. -/
inductive JsValue where
  | undefined
  | null
  | bool (b : Bool)
  | number (n : Int)
  | string (s : String)
  | date (t : Int)
  | objectId (n : Nat)
  deriving DecidableEq, Repr

/-- The value caught by `catch (e)`: the script reads `e.code` and
`e.message`. -/
structure JsError where
  code : JsValue
  message : String
  deriving DecidableEq, Repr

/-- A document: its fields in order. -/
abbrev Doc := List (String × JsValue)

/-- The integral numbers of magnitude below `10 ^ 21`: the numbers JavaScript
prints as plain decimal integers.  The index directions `1` and `-1` are of this
kind. -/
structure Direction where
  val : Int
  small : val.natAbs < 10 ^ 21
  deriving DecidableEq, Repr

instance : OfNat Direction 1 := ⟨⟨1, by decide⟩⟩

instance : Neg Direction := ⟨fun n => ⟨-n.val, by rw [Int.natAbs_neg]; exact n.small⟩⟩

/-- The value of one field of an index key specification: a direction such as
`1`, an index kind such as `"text"`, or any other value (a number that is not
integral or not below `10 ^ 21`, a wrapped number, a nested object), which is
given by the text `JSON.stringify` prints for it. -/
inductive KeyValue where
  | dir (n : Direction)
  | kind (s : String)
  | other (json : String)
  deriving DecidableEq, Repr

/-- An index key specification such as `{ "tenantId": 1, "eventId": 1 }`. -/
abbrev KeySpec := List (String × KeyValue)

/-- The options object passed to `createIndex`; `unique` and `sparse` are
absent (false) unless given. -/
structure IndexOptions where
  unique : Bool := false
  sparse : Bool := false
  name : String
  deriving DecidableEq, Repr

/-- One element of the array returned by `getIndexes()`. -/
structure IndexInfo where
  name : String
  key : KeySpec
  unique : Bool
  sparse : Bool
  deriving DecidableEq, Repr

/-! ## JSON.stringify on key specifications -/

namespace JSON

/-- Lower-case hexadecimal digit. -/
def hexDigit (n : Nat) : Char :=
  if n < 10 then Char.ofNat (48 + n) else Char.ofNat (87 + n)

/-- The JSON escape of one character inside a string literal. -/
def escapeChar (c : Char) : String :=
  if c.toNat = 34 then "\\\""
  else if c.toNat = 92 then "\\\\"
  else if c.toNat = 8 then "\\b"
  else if c.toNat = 12 then "\\f"
  else if c.toNat = 10 then "\\n"
  else if c.toNat = 13 then "\\r"
  else if c.toNat = 9 then "\\t"
  else if c.toNat < 32 then
    "\\u00" ++ String.mk [hexDigit (c.toNat / 16), hexDigit (c.toNat % 16)]
  else String.mk [c]

/-- A string as a JSON string literal. -/
def quote (s : String) : String :=
  "\"" ++ String.join (s.toList.map escapeChar) ++ "\""

/-- A key value as JSON: a direction is an integer of magnitude below `10 ^ 21`
and is printed in decimal, a kind is a string literal, and any other value comes
with its text. -/
def value : KeyValue → String
  | .dir n => toString n.val
  | .kind s => quote s
  | .other json => json

/-- One `"field":value` member. -/
def member (p : String × KeyValue) : String :=
  quote p.1 ++ ":" ++ value p.2

/-- `JSON.stringify(index.key)`: members in order, separated by commas, no
white space. -/
def stringify (k : KeySpec) : String :=
  "\x7b" ++ String.intercalate "," (k.map member) ++ "\x7d"

end JSON

/-! ## The script monad -/

/-- A call on the `db` object. -/
inductive Call where
  | createCollection (coll : String)
  | createIndex (coll : String) (key : KeySpec) (opts : IndexOptions)
  | getIndexes (coll : String)
  | insertOne (coll : String) (doc : Doc)
  deriving DecidableEq, Repr

/-- What a run has done so far: the database, the lines printed (one entry per
`print` call) and the database calls issued, each with the error it threw, if
any. -/
structure World (σ : Type) where
  db : σ
  out : List String
  log : List (Call × Option JsError)

/-- A script action: it either returns a value or throws, and in both cases
leaves a world behind. -/
def Script (σ : Type) (α : Type) : Type := World σ → Except JsError α × World σ

namespace Script

variable {σ : Type} {α β : Type}

/-- Return a value. -/
def ret (a : α) : Script σ α := fun w => (.ok a, w)

/-- Run `m`, then `f` on its value; an exception thrown by `m` skips `f`. -/
def andThen (m : Script σ α) (f : α → Script σ β) : Script σ β := fun w =>
  match m w with
  | (.ok a, w') => f a w'
  | (.error e, w') => (.error e, w')

/-- Throw `e`. -/
def raise (e : JsError) : Script σ α := fun w => (.error e, w)

/-- Block `try { m } catch (e) { h e }`. -/
def tryCatch (m : Script σ α) (h : JsError → Script σ α) : Script σ α := fun w =>
  match m w with
  | (.ok a, w') => (.ok a, w')
  | (.error e, w') => h e w'

instance : Monad (Script σ) where
  pure := ret
  bind := andThen

instance : MonadExcept JsError (Script σ) where
  throw := raise
  tryCatch := tryCatch

end Script

/-- The interface of the shell's `db` object.  A mutating call returns the new
database and the error it threw, if any. -/
structure Engine (σ : Type) where
  createCollection : σ → String → σ × Option JsError
  createIndex : σ → String → KeySpec → IndexOptions → σ × Option JsError
  getIndexes : σ → String → Except JsError (List IndexInfo)
  insertOne : σ → String → Doc → σ × Option JsError

section Primitives

variable {σ : Type}

/-- Shell function `print(s)`. -/
def print (s : String) : Script σ Unit := fun w =>
  (.ok (), { w with out := w.out ++ [s] })

/-- Finish a mutating call: store the new database, log the call, and throw if
the call threw. -/
def finish (c : Call) (r : σ × Option JsError) : Script σ Unit := fun w =>
  ( (match r.2 with
     | none => .ok ()
     | some e => .error e),
    { w with db := r.1, log := w.log ++ [(c, r.2)] } )

/-- Call `db.createCollection(name)`. -/
def createCollection (E : Engine σ) (name : String) : Script σ Unit := fun w =>
  finish (.createCollection name) (E.createCollection w.db name) w

/-- Call `db.<coll>.createIndex(key, opts)`. -/
def createIndex (E : Engine σ) (coll : String) (key : KeySpec) (opts : IndexOptions) :
    Script σ Unit := fun w =>
  finish (.createIndex coll key opts) (E.createIndex w.db coll key opts) w

/-- Call `db.<coll>.getIndexes()`. -/
def getIndexes (E : Engine σ) (coll : String) : Script σ (List IndexInfo) := fun w =>
  match E.getIndexes w.db coll with
  | .ok l => (.ok l, { w with log := w.log ++ [(.getIndexes coll, none)] })
  | .error e => (.error e, { w with log := w.log ++ [(.getIndexes coll, some e)] })

/-- Call `db.<coll>.insertOne(doc)`. -/
def insertOne (E : Engine σ) (coll : String) (doc : Doc) : Script σ Unit := fun w =>
  finish (.insertOne coll doc) (E.insertOne w.db coll doc) w

end Primitives

/-! ## The script -/

/-- The document literal of lines 97-110; `t₁` and `t₂` are the two readings of
`new Date()`. -/
def demoTenant (t₁ t₂ : Int) : Doc :=
  [ ("tenantId", .string "demo-tenant"),
    ("companyName", .string "Demo Company"),
    ("apiKey", .string "demo-api-key-replace-with-real"),
    ("apiUrl", .string "https://api.aptrinsic.com"),
    ("active", .bool false),
    ("extractionIntervalMinutes", .number 5),
    ("extractCustomEvents", .bool true),
    ("extractStandardEvents", .bool true),
    ("maxRetryAttempts", .number 3),
    ("timeoutSeconds", .number 30),
    ("createdAt", .date t₁),
    ("updatedAt", .date t₂) ]

section TheScript

variable {σ : Type}

/-- Lines 7-9. -/
def createCollections (E : Engine σ) : Script σ Unit := do
  createCollection E "tenant_configurations"
  createCollection E "extracted_events"

/-- Lines 11-36. -/
def createTenantIndexes (E : Engine σ) : Script σ Unit := do
  print "Creating indexes for tenant_configurations..."
  createIndex E "tenant_configurations"
    [("tenantId", .dir 1)]
    { unique := true, name := "idx_tenant_id_unique" }
  createIndex E "tenant_configurations"
    [("active", .dir 1)]
    { name := "idx_active" }
  createIndex E "tenant_configurations"
    [("active", .dir 1), ("lastAttemptedExtraction", .dir 1)]
    { name := "idx_active_last_attempted" }
  createIndex E "tenant_configurations"
    [("lastExtractionError", .dir 1)]
    { sparse := true, name := "idx_extraction_error" }

/-- Lines 38-81. -/
def createEventIndexes (E : Engine σ) : Script σ Unit := do
  print "Creating indexes for extracted_events..."
  createIndex E "extracted_events"
    [("tenantId", .dir 1)]
    { name := "idx_tenant_id" }
  createIndex E "extracted_events"
    [("eventId", .dir 1)]
    { name := "idx_event_id" }
  createIndex E "extracted_events"
    [("extractedAt", .dir 1)]
    { name := "idx_extracted_at" }
  createIndex E "extracted_events"
    [("status", .dir 1)]
    { name := "idx_status" }
  createIndex E "extracted_events"
    [("tenantId", .dir 1), ("extractedAt", .dir 1)]
    { name := "idx_tenant_extracted_at" }
  createIndex E "extracted_events"
    [("tenantId", .dir 1), ("eventId", .dir 1)]
    { unique := true, name := "idx_tenant_event_unique" }
  createIndex E "extracted_events"
    [("status", .dir 1), ("retryCount", .dir 1)]
    { name := "idx_status_retry" }

/-- The callback of both `forEach` calls (lines 86 and 91). -/
def indexLine (index : IndexInfo) : String :=
  "  - " ++ index.name ++ ": " ++ JSON.stringify index.key

/-- Lines 83-92. -/
def reportIndexes (E : Engine σ) : Script σ Unit := do
  print "\nIndexes for tenant_configurations:"
  (← getIndexes E "tenant_configurations").forM fun index =>
    print (indexLine index)
  print "\nIndexes for extracted_events:"
  (← getIndexes E "extracted_events").forM fun index =>
    print (indexLine index)

/-- Lines 94-118. -/
def seedDemoTenant (E : Engine σ) (t₁ t₂ : Int) : Script σ Unit := do
  print "\nInserting sample tenant configuration..."
  try
    insertOne E "tenant_configurations" (demoTenant t₁ t₂)
    print "Sample tenant configuration created successfully."
  catch e =>
    if e.code = .number 11000 then
      print "Sample tenant already exists, skipping."
    else
      print ("Error creating sample tenant: " ++ e.message)

/-- Lines 120-124. -/
def banner : Script σ Unit := do
  print "\nMongoDB setup completed successfully!"
  print "Next steps:"
  print "1. Update your application.properties with the MongoDB connection string"
  print "2. Replace the demo API key with your real Gainsight PX API key"
  print "3. Start your Spring Boot application"

/-- Steps 1-3 of the script, the declarations of lines 7-81. -/
def declare (E : Engine σ) : Script σ Unit := do
  createCollections E
  createTenantIndexes E
  createEventIndexes E

/-- Steps 1-4 of the script: lines 7-92. -/
def provision (E : Engine σ) : Script σ Unit := do
  declare E
  reportIndexes E

/-- The whole script. -/
def script (E : Engine σ) (t₁ t₂ : Int) : Script σ Unit := do
  provision E
  seedDemoTenant E t₁ t₂
  banner

/-- The result of a run. -/
structure Result (σ : Type) where
  thrown : Option JsError
  db : σ
  out : List String
  log : List (Call × Option JsError)

/-- Run an action from database `s` with nothing printed and nothing logged. -/
def exec (m : Script σ Unit) (s : σ) : Result σ :=
  match m { db := s, out := [], log := [] } with
  | (.ok _, w) => { thrown := none, db := w.db, out := w.out, log := w.log }
  | (.error e, w) => { thrown := some e, db := w.db, out := w.out, log := w.log }

/-- Run the whole script on database `s`. -/
def run (E : Engine σ) (t₁ t₂ : Int) (s : σ) : Result σ :=
  exec (script E t₁ t₂) s

end TheScript

/-! ## The declarations as data

Lines 7-81 are straight-line code.  `declareSteps` lists the same statements as
data, so that facts about them can be shown by induction over the list;
`declare_eq_runSteps` shows that running the list is running the code. -/

/-- A statement of the straight-line part of the script. -/
inductive Step where
  | say (s : String)
  | createCollection (name : String)
  | createIndex (coll : String) (key : KeySpec) (opts : IndexOptions)
  deriving DecidableEq, Repr

/-- The database call a statement makes, if it makes one. -/
def Step.call : Step → Option Call
  | .say _ => none
  | .createCollection n => some (.createCollection n)
  | .createIndex c k o => some (.createIndex c k o)

/-- The line a statement prints, if it prints one. -/
def Step.line : Step → Option String
  | .say s => some s
  | _ => none

/-- Run one statement. -/
def Step.run {σ : Type} (E : Engine σ) : Step → Script σ Unit
  | .say s => print s
  | .createCollection n => SetupMongodb.createCollection E n
  | .createIndex c k o => SetupMongodb.createIndex E c k o

/-- Run statements in order. -/
def runSteps {σ : Type} (E : Engine σ) : List Step → Script σ Unit
  | [] => pure ()
  | st :: rest => do
    st.run E
    runSteps E rest

/-- The statements of lines 7-81, in order. -/
def declareSteps : List Step :=
  [ .createCollection "tenant_configurations",
    .createCollection "extracted_events",
    .say "Creating indexes for tenant_configurations...",
    .createIndex "tenant_configurations" [("tenantId", .dir 1)]
      { unique := true, name := "idx_tenant_id_unique" },
    .createIndex "tenant_configurations" [("active", .dir 1)]
      { name := "idx_active" },
    .createIndex "tenant_configurations"
      [("active", .dir 1), ("lastAttemptedExtraction", .dir 1)]
      { name := "idx_active_last_attempted" },
    .createIndex "tenant_configurations" [("lastExtractionError", .dir 1)]
      { sparse := true, name := "idx_extraction_error" },
    .say "Creating indexes for extracted_events...",
    .createIndex "extracted_events" [("tenantId", .dir 1)]
      { name := "idx_tenant_id" },
    .createIndex "extracted_events" [("eventId", .dir 1)]
      { name := "idx_event_id" },
    .createIndex "extracted_events" [("extractedAt", .dir 1)]
      { name := "idx_extracted_at" },
    .createIndex "extracted_events" [("status", .dir 1)]
      { name := "idx_status" },
    .createIndex "extracted_events" [("tenantId", .dir 1), ("extractedAt", .dir 1)]
      { name := "idx_tenant_extracted_at" },
    .createIndex "extracted_events" [("tenantId", .dir 1), ("eventId", .dir 1)]
      { unique := true, name := "idx_tenant_event_unique" },
    .createIndex "extracted_events" [("status", .dir 1), ("retryCount", .dir 1)]
      { name := "idx_status_retry" } ]

/-- The lines a list of statements prints. -/
def stepLines (l : List Step) : List String :=
  l.filterMap Step.line

/-- The log entries a list of statements leaves when every call returns. -/
def okLog (l : List Step) : List (Call × Option JsError) :=
  (l.filterMap Step.call).map fun c => (c, none)

/-! ## A model of the database engine

The engine behind the shell's `db` object is not part of the repository.  The
definitions of this section model it from the specification: collections are
created by `createCollection` or by their first write, each with a primary-key
index; an index may be unique (a second document with the same key is refused
with the duplicate-key condition) or sparse (documents lacking the indexed field
have no entry); declaring an index again under the same name and specification
is a no-op.  Documents are flat: dotted paths and array values are not
modelled. -/

/-- A collection: its name, its indexes in creation order and its documents in
insertion order. -/
structure Collection where
  name : String
  indexes : List IndexInfo
  docs : List Doc
  deriving DecidableEq, Repr

/-- A database: its collections in creation order. -/
structure Db where
  colls : List Collection
  deriving DecidableEq, Repr

/-- Modelled from the spec: the default primary-key index every collection is
created with; it is unique. -/
def idIndex : IndexInfo :=
  { name := "_id_", key := [("_id", .dir 1)], unique := true, sparse := false }

/-- Modelled from the spec: a collection as `createCollection` or its first
write creates it. -/
def Collection.new (name : String) : Collection :=
  { name := name, indexes := [idIndex], docs := [] }

/-- Store collection `c` under its name: replace the collection of that name,
or add `c` at the end. -/
def putIn (c : Collection) : List Collection → List Collection
  | [] => [c]
  | c' :: cs => if c'.name = c.name then c :: cs else c' :: putIn c cs

namespace Db

/-- The fresh empty database. -/
def empty : Db := { colls := [] }

/-- The collection named `name`, if it exists. -/
def find (s : Db) (name : String) : Option Collection :=
  s.colls.find? fun c => c.name = name

/-- The collection named `name`, or the new collection a first write to that
name creates. -/
def get (s : Db) (name : String) : Collection :=
  (s.find name).getD (Collection.new name)

/-- Store collection `c` under its name. -/
def put (s : Db) (c : Collection) : Db :=
  { colls := putIn c s.colls }

end Db

/-- Modelled from the spec: the index key of a document, the values of the
indexed fields, a missing field counting as `null`. -/
def keyOf (ix : IndexInfo) (d : Doc) : List JsValue :=
  ix.key.map fun p => (d.lookup p.1).getD .null

/-- Modelled from the spec: whether index `ix` has an entry for document `d`; a
sparse index has none for a document that lacks the indexed field. -/
def hasEntry (ix : IndexInfo) (d : Doc) : Bool :=
  !ix.sparse || ix.key.any fun p => (d.lookup p.1).isSome

/-- Modelled from the spec: the keys held by index `ix` over the documents
`docs`. -/
def entries (ix : IndexInfo) (docs : List Doc) : List (List JsValue) :=
  (docs.filter (hasEntry ix)).map (keyOf ix)

/-- Modelled from the spec: whether inserting `d` next to `docs` violates index
`ix`, that is, `ix` is unique, has an entry for `d`, and already holds the key
of `d`. -/
def violates (ix : IndexInfo) (docs : List Doc) (d : Doc) : Bool :=
  ix.unique && hasEntry ix d && (entries ix docs).contains (keyOf ix d)

/-- The number of a generated `_id`, `0` for any other `_id`. -/
def idNumber (d : Doc) : Nat :=
  match d.lookup "_id" with
  | some (.objectId n) => n
  | _ => 0

/-- The number of the next generated `_id`: above every one in `docs`. -/
def freshId (docs : List Doc) : Nat :=
  (docs.map idNumber).foldr max 0 + 1

/-- Modelled from the spec: a document as stored; a document without `_id` gets
a generated one in front. -/
def withId (docs : List Doc) (d : Doc) : Doc :=
  if (d.lookup "_id").isSome then d else ("_id", .objectId (freshId docs)) :: d

/-- Modelled from the spec: the duplicate-key error (code 11000) raised for
index `ix` of `coll`. -/
def duplicateKey (coll : String) (ix : IndexInfo) : JsError :=
  { code := .number 11000,
    message := "E11000 duplicate key error collection: " ++ coll ++ " index: " ++ ix.name }

/-- The index a `createIndex(key, opts)` call declares. -/
def declared (key : KeySpec) (opts : IndexOptions) : IndexInfo :=
  { name := opts.name, key := key, unique := opts.unique, sparse := opts.sparse }

/-- Modelled from the spec: `db.createCollection`, which belongs to the database
engine and not to the script.  No error if the collection is already present;
otherwise the collection is created with its primary-key index. -/
def mongoCreateCollection (s : Db) (name : String) : Db × Option JsError :=
  (s.put (s.get name), none)

/-- Modelled from the spec: `createIndex`, which belongs to the database engine
and not to the script.  Re-creating an index with the same name and
specification is a no-op; a unique index fails at creation time (duplicate key)
if its key already occurs twice; otherwise the index is added.  Where the spec
is silent the model refuses the call: an existing name with another
specification (code 86), and an existing key under another name (code 85).  A
failed call leaves the database as it was. -/
def mongoCreateIndex (s : Db) (coll : String) (key : KeySpec) (opts : IndexOptions) :
    Db × Option JsError :=
  let c := s.get coll
  let ix := declared key opts
  match c.indexes.find? fun i => i.name = ix.name with
  | some i =>
    if i = ix then (s.put c, none)
    else (s, some { code := .number 86,
                    message := "An existing index has the same name as the requested index" })
  | none =>
    if c.indexes.any fun i => i.key = key then
      (s, some { code := .number 85,
                 message := "Index already exists with a different name" })
    else if ix.unique && !decide (entries ix c.docs).Nodup then
      (s, some (duplicateKey coll ix))
    else
      (s.put { c with indexes := c.indexes ++ [ix] }, none)

/-- Modelled from the spec: `getIndexes`, which belongs to the database engine
and not to the script.  It enumerates all indexes currently present in the
collection, in creation order, and none for a collection that does not
exist. -/
def mongoGetIndexes (s : Db) (coll : String) : Except JsError (List IndexInfo) :=
  .ok (match s.find coll with
       | some c => c.indexes
       | none => [])

/-- Modelled from the spec: `insertOne`, which belongs to the database engine
and not to the script.  The first write creates the collection; an insert that
violates a unique index fails with the duplicate-key condition (code 11000)
and stores nothing; otherwise the document is added at the end. -/
def mongoInsertOne (s : Db) (coll : String) (d : Doc) : Db × Option JsError :=
  let c := s.get coll
  let d' := withId c.docs d
  match c.indexes.find? fun ix => violates ix c.docs d' with
  | some ix => (s, some (duplicateKey coll ix))
  | none => (s.put { c with docs := c.docs ++ [d'] }, none)

/-- Modelled from the spec: the database engine behind the shell's `db`
object, assembled from the four calls the script makes. -/
def mongo : Engine Db :=
  { createCollection := mongoCreateCollection
    createIndex := mongoCreateIndex
    getIndexes := mongoGetIndexes
    insertOne := mongoInsertOne }

/-- Collection `coll` of `s` exists and `ix` is its index of that name. -/
def HasIndex (s : Db) (coll : String) (ix : IndexInfo) : Prop :=
  ∃ c, s.find coll = some c ∧ c.indexes.find? (fun i => i.name = ix.name) = some ix

/-- A database whose `tenant_configurations` collection holds two documents with
the same `tenantId` and has no index but the primary key. -/
def duplicateTenants : Db :=
  { colls :=
      [ { name := "tenant_configurations"
          indexes := [idIndex]
          docs := [ [("_id", .objectId 1), ("tenantId", .string "acme")],
                    [("_id", .objectId 2), ("tenantId", .string "acme")] ] } ] }

/-- The indexes of `tenant_configurations` once lines 14-36 have run on a new
collection: the primary key and the four declared ones. -/
def tenantIndexes : List IndexInfo :=
  [ idIndex,
    { name := "idx_tenant_id_unique", key := [("tenantId", .dir 1)],
      unique := true, sparse := false },
    { name := "idx_active", key := [("active", .dir 1)],
      unique := false, sparse := false },
    { name := "idx_active_last_attempted",
      key := [("active", .dir 1), ("lastAttemptedExtraction", .dir 1)],
      unique := false, sparse := false },
    { name := "idx_extraction_error", key := [("lastExtractionError", .dir 1)],
      unique := false, sparse := true } ]

/-- The indexes of `extracted_events` once lines 41-81 have run on a new
collection: the primary key and the seven declared ones. -/
def eventIndexes : List IndexInfo :=
  [ idIndex,
    { name := "idx_tenant_id", key := [("tenantId", .dir 1)],
      unique := false, sparse := false },
    { name := "idx_event_id", key := [("eventId", .dir 1)],
      unique := false, sparse := false },
    { name := "idx_extracted_at", key := [("extractedAt", .dir 1)],
      unique := false, sparse := false },
    { name := "idx_status", key := [("status", .dir 1)],
      unique := false, sparse := false },
    { name := "idx_tenant_extracted_at",
      key := [("tenantId", .dir 1), ("extractedAt", .dir 1)],
      unique := false, sparse := false },
    { name := "idx_tenant_event_unique",
      key := [("tenantId", .dir 1), ("eventId", .dir 1)],
      unique := true, sparse := false },
    { name := "idx_status_retry", key := [("status", .dir 1), ("retryCount", .dir 1)],
      unique := false, sparse := false } ]

/-- A database with the two collections and their indexes, holding the tenant
documents `tenants` and the event documents `events`. -/
def provisioned (tenants events : List Doc) : Db :=
  { colls :=
      [ { name := "tenant_configurations", indexes := tenantIndexes, docs := tenants },
        { name := "extracted_events", indexes := eventIndexes, docs := events } ] }

/-- The lines of a run that goes through on a provisioned database, up to the
seed message. -/
def reportLines : List String :=
  [ "Creating indexes for tenant_configurations...",
    "Creating indexes for extracted_events...",
    "\nIndexes for tenant_configurations:",
    "  - _id_: \x7b\"_id\":1\x7d",
    "  - idx_tenant_id_unique: \x7b\"tenantId\":1\x7d",
    "  - idx_active: \x7b\"active\":1\x7d",
    "  - idx_active_last_attempted: \x7b\"active\":1,\"lastAttemptedExtraction\":1\x7d",
    "  - idx_extraction_error: \x7b\"lastExtractionError\":1\x7d",
    "\nIndexes for extracted_events:",
    "  - _id_: \x7b\"_id\":1\x7d",
    "  - idx_tenant_id: \x7b\"tenantId\":1\x7d",
    "  - idx_event_id: \x7b\"eventId\":1\x7d",
    "  - idx_extracted_at: \x7b\"extractedAt\":1\x7d",
    "  - idx_status: \x7b\"status\":1\x7d",
    "  - idx_tenant_extracted_at: \x7b\"tenantId\":1,\"extractedAt\":1\x7d",
    "  - idx_tenant_event_unique: \x7b\"tenantId\":1,\"eventId\":1\x7d",
    "  - idx_status_retry: \x7b\"status\":1,\"retryCount\":1\x7d" ]

/-- The compound unique index of lines 71-75. -/
def tenantEventIndex : IndexInfo :=
  { name := "idx_tenant_event_unique", key := [("tenantId", .dir 1), ("eventId", .dir 1)],
    unique := true, sparse := false }

/-- The indexes the script declares on collection `coll`, in order. -/
def declaredIndexes (coll : String) : List IndexInfo :=
  declareSteps.filterMap fun st =>
    match st with
    | .createIndex c k o => if c = coll then some (declared k o) else none
    | _ => none

/-- The `(tenantId, eventId)` pair of a document, a missing field counting as
`null`. -/
def eventPair (d : Doc) : JsValue × JsValue :=
  ((d.lookup "tenantId").getD .null, (d.lookup "eventId").getD .null)

/-- A database in which someone created `tenant_configurations` and two indexes
of their own on it before the script ran: a descending one, and one whose key
has a field name with a quote, a backslash, a line feed and a control character,
a text kind and a direction that is not integral. -/
def foreignDb : Db :=
  { colls :=
      [ { name := "tenant_configurations"
          indexes :=
            [ idIndex,
              { name := "legacy_company", key := [("companyName", .dir (-1))],
                unique := false, sparse := false },
              { name := "legacy_notes"
                key := [("note\"s\\x\n\x01", .kind "text"), ("weight", .other "1.5")]
                unique := false, sparse := false } ]
          docs := [] } ] }

/-- A database with one stored event of tenant "t1". -/
def oneEvent : Db :=
  provisioned []
    [ [ ("_id", .objectId 1), ("tenantId", .string "t1"), ("eventId", .string "e1"),
        ("status", .string "NEW") ] ]

/-! ## Laws of the script monad -/

section Monad

variable {σ : Type}

theorem bind_apply {α β : Type} (m : Script σ α) (f : α → Script σ β) (w : World σ) :
    (m >>= f) w = Script.andThen m f w := rfl

theorem pure_apply {α : Type} (a : α) (w : World σ) :
    (pure a : Script σ α) w = (.ok a, w) := rfl

theorem andThen_assoc {α β γ : Type} (m : Script σ α) (f : α → Script σ β)
    (g : β → Script σ γ) : (m >>= f) >>= g = m >>= fun a => f a >>= g := by
  funext w
  simp only [bind_apply, Script.andThen]
  rcases m w with ⟨r, w'⟩
  cases r <;> rfl

theorem andThen_ret (m : Script σ Unit) :
    (m >>= fun _ => (pure () : Script σ Unit)) = m := by
  funext w
  simp only [bind_apply, Script.andThen]
  rcases m w with ⟨r, w'⟩
  cases r <;> rfl

end Monad

/-! ## The phases of the script, for every engine -/

section Phases

variable {σ : Type}

/-- Running the list of declarations is running lines 7-81. -/
theorem declare_eq_runSteps (E : Engine σ) : declare E = runSteps E declareSteps := by
  simp only [declare, createCollections, createTenantIndexes, createEventIndexes, declareSteps,
    runSteps, Step.run, andThen_assoc, andThen_ret]

theorem forM_print {ι : Type} (f : ι → String) (l : List ι) (w : World σ) :
    (l.forM fun i => (print (f i) : Script σ Unit)) w
      = (.ok (), { w with out := w.out ++ l.map f }) := by
  induction l generalizing w with
  | nil => simp [List.forM, pure_apply]
  | cons i l ih =>
    simp only [List.forM, bind_apply, Script.andThen, print, ih, List.map_cons]
    simp

theorem banner_apply (w : World σ) :
    (banner : Script σ Unit) w = (.ok (), { w with out := w.out ++
      [ "\nMongoDB setup completed successfully!",
        "Next steps:",
        "1. Update your application.properties with the MongoDB connection string",
        "2. Replace the demo API key with your real Gainsight PX API key",
        "3. Start your Spring Boot application" ] }) := by
  simp [banner, bind_apply, Script.andThen, print]

theorem seedDemoTenant_apply (E : Engine σ) (t₁ t₂ : Int) (w : World σ) :
    seedDemoTenant E t₁ t₂ w =
      (.ok (),
        { db := (E.insertOne w.db "tenant_configurations" (demoTenant t₁ t₂)).1
          out := w.out ++ ["\nInserting sample tenant configuration...",
            match (E.insertOne w.db "tenant_configurations" (demoTenant t₁ t₂)).2 with
            | none => "Sample tenant configuration created successfully."
            | some e =>
              if e.code = .number 11000 then "Sample tenant already exists, skipping."
              else "Error creating sample tenant: " ++ e.message]
          log := w.log ++ [(.insertOne "tenant_configurations" (demoTenant t₁ t₂),
            (E.insertOne w.db "tenant_configurations" (demoTenant t₁ t₂)).2)] }) := by
  simp only [seedDemoTenant, bind_apply, Script.andThen, print, insertOne, finish, tryCatch,
    tryCatchThe, MonadExceptOf.tryCatch, Script.tryCatch]
  cases h : (E.insertOne w.db "tenant_configurations" (demoTenant t₁ t₂)).2 with
  | none => simp
  | some e =>
    by_cases hc : e.code = .number 11000 <;> simp [hc, print]

theorem reportIndexes_apply (E : Engine σ) (w : World σ) :
    reportIndexes E w =
      match E.getIndexes w.db "tenant_configurations" with
      | .error e =>
        (.error e,
          { w with
            out := w.out ++ ["\nIndexes for tenant_configurations:"]
            log := w.log ++ [(.getIndexes "tenant_configurations", some e)] })
      | .ok l₁ =>
        match E.getIndexes w.db "extracted_events" with
        | .error e =>
          (.error e,
            { w with
              out := w.out ++ ["\nIndexes for tenant_configurations:"] ++ l₁.map indexLine
                ++ ["\nIndexes for extracted_events:"]
              log := w.log ++ [(.getIndexes "tenant_configurations", none),
                (.getIndexes "extracted_events", some e)] })
        | .ok l₂ =>
          (.ok (),
            { w with
              out := w.out ++ ["\nIndexes for tenant_configurations:"] ++ l₁.map indexLine
                ++ ["\nIndexes for extracted_events:"] ++ l₂.map indexLine
              log := w.log ++ [(.getIndexes "tenant_configurations", none),
                (.getIndexes "extracted_events", none)] }) := by
  simp only [reportIndexes, bind_apply, Script.andThen, print, getIndexes]
  cases h₁ : E.getIndexes w.db "tenant_configurations" with
  | error e => simp
  | ok l₁ =>
    simp only [forM_print]
    cases h₂ : E.getIndexes w.db "extracted_events" with
    | error e => simp
    | ok l₂ => simp [forM_print]

/-- The script, phase by phase: a throw in the declarations or in the report
ends the run; the seed step never throws and the banner follows it. -/
theorem script_apply (E : Engine σ) (t₁ t₂ : Int) (w : World σ) :
    script E t₁ t₂ w =
      match declare E w with
      | (.error e, w₁) => (.error e, w₁)
      | (.ok _, w₁) =>
        match reportIndexes E w₁ with
        | (.error e, w₂) => (.error e, w₂)
        | (.ok _, w₂) => banner (seedDemoTenant E t₁ t₂ w₂).2 := by
  simp only [script, provision, bind_apply, Script.andThen]
  rcases declare E w with ⟨r₁, w₁⟩
  cases r₁ with
  | error e => rfl
  | ok u =>
    simp only []
    rcases reportIndexes E w₁ with ⟨r₂, w₂⟩
    cases r₂ with
    | error e => rfl
    | ok u₂ => simp only [seedDemoTenant_apply]

theorem mem_okLog {l : List Step} {p : Call × Option JsError} (h : p ∈ okLog l) :
    p.2 = none ∧ ∃ st ∈ l, st.call = some p.1 := by
  simp only [okLog, List.mem_map, List.mem_filterMap] at h
  obtain ⟨c, ⟨st, hst, hc⟩, rfl⟩ := h
  exact ⟨rfl, st, hst, hc⟩

theorem mem_stepLines {l : List Step} {x : String} (h : x ∈ stepLines l) :
    Step.say x ∈ l := by
  simp only [stepLines, List.mem_filterMap] at h
  obtain ⟨st, hst, hx⟩ := h
  cases st <;> simp [Step.line] at hx
  subst hx
  exact hst

/-- One statement: it prints, or it makes a call that returns or throws. -/
theorem Step.run_apply (E : Engine σ) (st : Step) (w : World σ) :
    (∃ w', st.run E w = (.ok (), w') ∧ w'.out = w.out ++ stepLines [st] ∧
        w'.log = w.log ++ okLog [st]) ∨
    (∃ e w' c, st.run E w = (.error e, w') ∧ st.call = some c ∧ w'.out = w.out ∧
        w'.log = w.log ++ [(c, some e)]) := by
  cases st with
  | say s => left; exact ⟨_, rfl, rfl, by simp [okLog, Step.call]⟩
  | createCollection n =>
    simp only [Step.run, SetupMongodb.createCollection, finish]
    cases h : (E.createCollection w.db n).2 with
    | none => left; exact ⟨_, rfl, by simp [stepLines, Step.line], by simp [okLog, Step.call]⟩
    | some e => right; exact ⟨e, _, _, rfl, rfl, rfl, rfl⟩
  | createIndex c k o =>
    simp only [Step.run, SetupMongodb.createIndex, finish]
    cases h : (E.createIndex w.db c k o).2 with
    | none => left; exact ⟨_, rfl, by simp [stepLines, Step.line], by simp [okLog, Step.call]⟩
    | some e => right; exact ⟨e, _, _, rfl, rfl, rfl, rfl⟩

theorem okLog_cons (st : Step) (l : List Step) : okLog (st :: l) = okLog [st] ++ okLog l := by
  cases st <;> simp [okLog, Step.call, List.filterMap_cons]

theorem stepLines_cons (st : Step) (l : List Step) :
    stepLines (st :: l) = stepLines [st] ++ stepLines l := by
  cases st <;> simp [stepLines, Step.line, List.filterMap_cons]

/-- A list of statements runs to its end, or stops at the first call that
throws. -/
theorem runSteps_apply (E : Engine σ) (l : List Step) (w : World σ) :
    (∃ w', runSteps E l w = (.ok (), w') ∧ w'.out = w.out ++ stepLines l ∧
        w'.log = w.log ++ okLog l) ∨
    (∃ e w' pre st post c, runSteps E l w = (.error e, w') ∧ l = pre ++ st :: post ∧
        st.call = some c ∧ w'.out = w.out ++ stepLines pre ∧
        w'.log = w.log ++ okLog pre ++ [(c, some e)]) := by
  induction l generalizing w with
  | nil => left; exact ⟨w, rfl, by simp [stepLines], by simp [okLog]⟩
  | cons st l ih =>
    simp only [runSteps, bind_apply, Script.andThen]
    rcases Step.run_apply E st w with ⟨w₁, h₁, ho, hl⟩ | ⟨e, w₁, c, h₁, hc, ho, hl⟩
    · rw [h₁]
      rcases ih w₁ with ⟨w₂, h₂, ho₂, hl₂⟩ | ⟨e, w₂, pre, st', post, c, h₂, hpre, hc, ho₂, hl₂⟩
      · left
        refine ⟨w₂, h₂, ?_, ?_⟩
        · rw [stepLines_cons st l, ho₂, ho, List.append_assoc]
        · rw [okLog_cons st l, hl₂, hl, List.append_assoc]
      · right
        refine ⟨e, w₂, st :: pre, st', post, c, h₂, by rw [hpre]; rfl, hc, ?_, ?_⟩
        · rw [stepLines_cons st pre, ho₂, ho, List.append_assoc]
        · rw [okLog_cons st pre, hl₂, hl]; simp
    · rw [h₁]
      right
      exact ⟨e, w₁, [], st, l, c, rfl, rfl, hc, by simp [ho, stepLines], by simp [hl, okLog]⟩

theorem Step.call_ne {st : Step} {c : Call} (h : st.call = some c) :
    (∀ n, c ≠ .getIndexes n) ∧ (∀ n d, c ≠ .insertOne n d) := by
  cases st <;> simp [Step.call] at h <;> subst h <;> simp

theorem exec_eq (m : Script σ Unit) (s : σ) :
    exec m s =
      { thrown := match (m { db := s, out := [], log := [] }).1 with
          | .ok _ => none
          | .error e => some e
        db := (m { db := s, out := [], log := [] }).2.db
        out := (m { db := s, out := [], log := [] }).2.out
        log := (m { db := s, out := [], log := [] }).2.log } := by
  simp only [exec]
  rcases m { db := s, out := [], log := [] } with ⟨r, w⟩
  cases r <;> rfl

/-- The log of a run: the declarations up to a call that threw, or all the
declarations followed by calls of the report and the seed step only. -/
theorem run_log (E : Engine σ) (t₁ t₂ : Int) (s : σ) :
    (∃ e pre st post c, declareSteps = pre ++ st :: post ∧ st.call = some c ∧
        (run E t₁ t₂ s).thrown = some e ∧ (run E t₁ t₂ s).out = stepLines pre ∧
        (run E t₁ t₂ s).log = okLog pre ++ [(c, some e)]) ∨
    (∃ tail, (run E t₁ t₂ s).log = okLog declareSteps ++ tail ∧
        ∀ p ∈ tail, (∃ n, p.1 = .getIndexes n) ∨ (∃ n d, p.1 = .insertOne n d)) := by
  simp only [run, exec_eq, script_apply, declare_eq_runSteps]
  rcases runSteps_apply E declareSteps { db := s, out := [], log := [] } with
    ⟨w₁, h₁, ho, hl⟩ | ⟨e, w₁, pre, st, post, c, h₁, hpre, hc, ho, hl⟩
  · right
    rw [h₁]
    simp only [reportIndexes_apply, seedDemoTenant_apply, banner_apply]
    simp only [List.nil_append] at hl
    cases E.getIndexes w₁.db "tenant_configurations" with
    | error e => exact ⟨_, by simp only [hl]; rfl, by simp⟩
    | ok l₁ =>
      cases E.getIndexes w₁.db "extracted_events" with
      | error e => exact ⟨_, by simp only [hl]; rfl, by simp⟩
      | ok l₂ => exact ⟨_, by simp only [hl, List.append_assoc]; rfl, by simp⟩
  · left
    rw [h₁]
    exact ⟨e, pre, st, post, c, hpre, hc, rfl, by simpa using ho, by simpa using hl⟩

theorem say_mem_declareSteps {x : String} (h : Step.say x ∈ declareSteps) :
    x = "Creating indexes for tenant_configurations..." ∨
    x = "Creating indexes for extracted_events..." := by
  simpa [declareSteps] using h

/-- The script after a provisioning phase that returned. -/
theorem script_of_provision (E : Engine σ) (t₁ t₂ : Int) (w w₁ : World σ)
    (h : provision E w = (.ok (), w₁)) :
    script E t₁ t₂ w = banner (seedDemoTenant E t₁ t₂ w₁).2 := by
  simp only [script, bind_apply, Script.andThen, h, seedDemoTenant_apply]

/-- A relation between databases that every statement of the declarations
respects. -/
theorem runSteps_rel (E : Engine σ) (R : σ → σ → Prop) (hrefl : ∀ s, R s s)
    (htrans : ∀ a b c, R a b → R b c → R a c)
    (hcc : ∀ s n, R s (E.createCollection s n).1)
    (hci : ∀ s n k o, R s (E.createIndex s n k o).1)
    (l : List Step) (w : World σ) : R w.db (runSteps E l w).2.db := by
  induction l generalizing w with
  | nil => exact hrefl _
  | cons st l ih =>
    simp only [runSteps, bind_apply, Script.andThen]
    have h₁ : R w.db (st.run E w).2.db := by
      cases st with
      | say x => exact hrefl _
      | createCollection n => exact hcc _ _
      | createIndex c k o => exact hci _ _ _ _
    rcases hst : st.run E w with ⟨r, w₁⟩
    rw [hst] at h₁
    cases r with
    | error e => exact h₁
    | ok u => exact htrans _ _ _ h₁ (ih w₁)

theorem reportIndexes_db (E : Engine σ) (w : World σ) : (reportIndexes E w).2.db = w.db := by
  rw [reportIndexes_apply]
  cases E.getIndexes w.db "tenant_configurations" with
  | error e => rfl
  | ok l₁ =>
    cases E.getIndexes w.db "extracted_events" with
    | error e => rfl
    | ok l₂ => rfl

/-- The database after a run: the declarations ran, and then the seed insert
ran or the run had stopped before it. -/
theorem run_db (E : Engine σ) (t₁ t₂ : Int) (s : σ) :
    (run E t₁ t₂ s).db = (declare E { db := s, out := [], log := [] }).2.db ∨
    (run E t₁ t₂ s).db =
      (E.insertOne (declare E { db := s, out := [], log := [] }).2.db
        "tenant_configurations" (demoTenant t₁ t₂)).1 := by
  simp only [run, exec_eq, script_apply]
  rcases declare E { db := s, out := [], log := [] } with ⟨r₁, w₁⟩
  cases r₁ with
  | error e => left; rfl
  | ok u =>
    simp only []
    have hdb := reportIndexes_db E w₁
    rcases hr : reportIndexes E w₁ with ⟨r₂, w₂⟩
    rw [hr] at hdb
    simp only at hdb
    cases r₂ with
    | error e => left; exact hdb
    | ok u₂ =>
      right
      simp only [banner_apply, seedDemoTenant_apply]
      rw [hdb]

end Phases

/-! ## The database model -/

theorem find?_putIn_same (c : Collection) (cs : List Collection) :
    (putIn c cs).find? (fun x => x.name = c.name) = some c := by
  induction cs with
  | nil => simp [putIn]
  | cons c' cs ih =>
    by_cases h : c'.name = c.name
    · simp [putIn, h]
    · simp [putIn, h, ih]

theorem find?_putIn_ne (c : Collection) (cs : List Collection) (n : String) (h : c.name ≠ n) :
    (putIn c cs).find? (fun x => x.name = n) = cs.find? (fun x => x.name = n) := by
  induction cs with
  | nil => simp [putIn, h]
  | cons c' cs ih =>
    by_cases h' : c'.name = c.name
    · have : c'.name ≠ n := by rw [h']; exact h
      simp [putIn, h', h, this]
    · by_cases h'' : c'.name = n
      · subst h''
        simp [putIn, h']
      · simp [putIn, h', h'', ih]

theorem putIn_of_find? (c : Collection) (cs : List Collection) (n : String)
    (h : cs.find? (fun x => x.name = n) = some c) : putIn c cs = cs := by
  induction cs with
  | nil => simp at h
  | cons c' cs ih =>
    by_cases h' : c'.name = n
    · have hc : c' = c := by simpa [List.find?, h'] using h
      subst hc
      simp [putIn]
    · have hfind : cs.find? (fun x => x.name = n) = some c := by
        simpa [List.find?, h'] using h
      have hn : c.name = n := by
        have := List.find?_some hfind
        simpa using this
      have : c'.name ≠ c.name := by rw [hn]; exact h'
      simp [putIn, this, ih hfind]

namespace Db

theorem find_name {s : Db} {n : String} {c : Collection} (h : s.find n = some c) : c.name = n := by
  have := List.find?_some h
  simpa using this

theorem get_name (s : Db) (n : String) : (s.get n).name = n := by
  unfold get
  cases h : s.find n with
  | none => rfl
  | some c => exact find_name h

theorem find_put_same (s : Db) (c : Collection) : (s.put c).find c.name = some c :=
  find?_putIn_same c s.colls

theorem find_put_ne (s : Db) (c : Collection) (n : String) (h : c.name ≠ n) :
    (s.put c).find n = s.find n :=
  find?_putIn_ne c s.colls n h

theorem put_of_find {s : Db} {n : String} {c : Collection} (h : s.find n = some c) :
    s.put c = s := by
  cases s with
  | mk cs => simp only [put]; rw [putIn_of_find? c cs n h]

theorem get_of_find {s : Db} {n : String} {c : Collection} (h : s.find n = some c) :
    s.get n = c := by
  simp [get, h]

theorem get_put (s : Db) (c : Collection) (n : String) :
    (s.put c).get n = if c.name = n then c else s.get n := by
  by_cases h : c.name = n
  · subst h
    simp [get, find_put_same]
  · simp [get, find_put_ne s c n h, h]

end Db

theorem get_put_get (s : Db) (n c : String) : (s.put (s.get n)).get c = s.get c := by
  rw [Db.get_put, Db.get_name]
  split
  · next h => rw [h]
  · rfl

theorem mongoCreateCollection_docs (s : Db) (n c : String) :
    ((mongoCreateCollection s n).1.get c).docs = (s.get c).docs := by
  simp only [mongoCreateCollection, get_put_get]

theorem mongoCreateIndex_docs (s : Db) (n : String) (k : KeySpec) (o : IndexOptions)
    (c : String) : ((mongoCreateIndex s n k o).1.get c).docs = (s.get c).docs := by
  unfold mongoCreateIndex
  simp only []
  split
  · split
    · simp only [get_put_get]
    · rfl
  · split
    · rfl
    · split
      · rfl
      · rw [Db.get_put]
        simp only [Db.get_name]
        split
        · next h => rw [h]
        · rfl

theorem mem_withId (docs : List Doc) (d : Doc) : ∀ p ∈ d, p ∈ withId docs d := by
  intro p hp
  unfold withId
  split
  · exact hp
  · exact List.mem_cons_of_mem _ hp

theorem mongoInsertOne_docs (s : Db) (n : String) (d : Doc) (c : String) :
    ((mongoInsertOne s n d).1.get c).docs = (s.get c).docs ∨
    (c = n ∧ ∃ d', (∀ p ∈ d, p ∈ d') ∧
      ((mongoInsertOne s n d).1.get c).docs = (s.get c).docs ++ [d']) := by
  unfold mongoInsertOne
  simp only []
  split
  · left; rfl
  · rw [Db.get_put]
    simp only [Db.get_name]
    by_cases h : n = c
    · right
      subst h
      exact ⟨rfl, withId (s.get n).docs d, mem_withId _ d, by simp⟩
    · left
      simp [h]


/-! ### Indexes persist -/

theorem HasIndex.put_same {s : Db} {c : Collection} {ix : IndexInfo}
    (h : c.indexes.find? (fun i => i.name = ix.name) = some ix) :
    HasIndex (s.put c) c.name ix :=
  ⟨c, Db.find_put_same s c, h⟩

theorem HasIndex.put_ne {s : Db} {c : Collection} {coll : String} {ix : IndexInfo}
    (hne : c.name ≠ coll) (h : HasIndex s coll ix) : HasIndex (s.put c) coll ix := by
  obtain ⟨c', hc', hix⟩ := h
  exact ⟨c', by rw [Db.find_put_ne s c coll hne]; exact hc', hix⟩

/-- Storing a collection keeps an index when the stored collection still has
it. -/
theorem HasIndex.put {s : Db} {c : Collection} {coll : String} {ix : IndexInfo}
    (h : HasIndex s coll ix)
    (hc : c.name = coll → c.indexes.find? (fun i => i.name = ix.name) = some ix) :
    HasIndex (s.put c) coll ix := by
  by_cases hn : c.name = coll
  · subst hn
    exact HasIndex.put_same (hc rfl)
  · exact HasIndex.put_ne hn h

theorem HasIndex.get {s : Db} {coll : String} {ix : IndexInfo} (h : HasIndex s coll ix) :
    (s.get coll).indexes.find? (fun i => i.name = ix.name) = some ix := by
  obtain ⟨c, hc, hix⟩ := h
  rw [Db.get_of_find hc]
  exact hix

theorem HasIndex.put_get {s : Db} {n coll : String} {ix : IndexInfo}
    (h : HasIndex s coll ix) : HasIndex (s.put (s.get n)) coll ix := by
  apply HasIndex.put h
  intro hn
  rw [Db.get_name] at hn
  subst hn
  exact h.get

theorem mongoCreateCollection_hasIndex {s : Db} {coll : String} {ix : IndexInfo} (n : String)
    (h : HasIndex s coll ix) : HasIndex (mongoCreateCollection s n).1 coll ix :=
  h.put_get

theorem find?_append_of_some {α : Type} (p : α → Bool) (l l' : List α) (a : α)
    (h : l.find? p = some a) : (l ++ l').find? p = some a := by
  simp [List.find?_append, h]

theorem mongoCreateIndex_hasIndex {s : Db} {coll : String} {ix : IndexInfo} (n : String)
    (k : KeySpec) (o : IndexOptions) (h : HasIndex s coll ix) :
    HasIndex (mongoCreateIndex s n k o).1 coll ix := by
  unfold mongoCreateIndex
  simp only []
  split
  · split
    · exact h.put_get
    · exact h
  · split
    · exact h
    · split
      · exact h
      · apply HasIndex.put h
        intro hn
        rw [Db.get_name] at hn
        subst hn
        exact find?_append_of_some _ _ _ _ h.get

theorem mongoInsertOne_hasIndex {s : Db} {coll : String} {ix : IndexInfo} (n : String)
    (d : Doc) (h : HasIndex s coll ix) : HasIndex (mongoInsertOne s n d).1 coll ix := by
  unfold mongoInsertOne
  simp only []
  split
  · exact h
  · apply HasIndex.put h
    intro hn
    rw [Db.get_name] at hn
    subst hn
    exact h.get

/-- A `createIndex` call that returns leaves the declared index in place. -/
theorem mongoCreateIndex_creates {s : Db} {n : String} {k : KeySpec} {o : IndexOptions}
    (h : (mongoCreateIndex s n k o).2 = none) :
    HasIndex (mongoCreateIndex s n k o).1 n (declared k o) := by
  unfold mongoCreateIndex at h ⊢
  simp only [] at h ⊢
  split
  · next i hi =>
    rw [hi] at h
    simp only [] at h
    split
    · next heq =>
      subst heq
      have := @HasIndex.put_same s (s.get n) _ hi
      rwa [Db.get_name] at this
    · next hne => simp [hne] at h
  · next hi =>
    rw [hi] at h
    simp only [] at h
    split
    · next hk => simp [hk] at h
    · next hk =>
      split
      · next hu => simp [hk, hu] at h
      · have := @HasIndex.put_same s
          { s.get n with indexes := (s.get n).indexes ++ [declared k o] }
          (declared k o) (by
            simp only [List.find?_append, hi]
            simp)
        simpa [Db.get_name] using this

/-- Declaring an index that is already in place changes nothing and returns. -/
theorem mongoCreateIndex_noop {s : Db} {n : String} {k : KeySpec} {o : IndexOptions}
    (h : HasIndex s n (declared k o)) : mongoCreateIndex s n k o = (s, none) := by
  obtain ⟨c, hc, hix⟩ := h
  unfold mongoCreateIndex
  simp only [Db.get_of_find hc]
  rw [hix]
  simp [Db.put_of_find hc]

/-- Declaring a collection that exists changes nothing and returns. -/
theorem mongoCreateCollection_noop {s : Db} {n : String} {c : Collection}
    (h : s.find n = some c) : mongoCreateCollection s n = (s, none) := by
  simp [mongoCreateCollection, Db.get_of_find h, Db.put_of_find h]

/-- After declarations that ran to the end on the model engine, every index
that was in place still is, and every declared index is in place. -/
theorem runSteps_mongo_hasIndex (l : List Step) (w w' : World Db)
    (h : runSteps mongo l w = (.ok (), w')) :
    (∀ coll ix, HasIndex w.db coll ix → HasIndex w'.db coll ix) ∧
    (∀ coll k o, Step.createIndex coll k o ∈ l → HasIndex w'.db coll (declared k o)) := by
  induction l generalizing w with
  | nil =>
    cases h
    exact ⟨fun _ _ h => h, by simp⟩
  | cons st l ih =>
    simp only [runSteps, bind_apply, Script.andThen] at h
    rcases hst : st.run mongo w with ⟨r, w₁⟩
    rw [hst] at h
    cases r with
    | error e => simp at h
    | ok u =>
      simp only [] at h
      obtain ⟨ih₁, ih₂⟩ := ih w₁ h
      have hmono : ∀ coll ix, HasIndex w.db coll ix → HasIndex w₁.db coll ix := by
        intro coll ix hix
        cases st with
        | say x => cases hst; exact hix
        | createCollection n =>
          simp only [Step.run, createCollection, finish] at hst
          have := (Prod.mk.inj hst).2
          subst this
          exact mongoCreateCollection_hasIndex n hix
        | createIndex c k o =>
          simp only [Step.run, createIndex, finish] at hst
          have := (Prod.mk.inj hst).2
          subst this
          exact mongoCreateIndex_hasIndex c k o hix
      refine ⟨fun coll ix hix => ih₁ _ _ (hmono _ _ hix), ?_⟩
      intro coll k o hmem
      rcases List.mem_cons.1 hmem with heq | hmem
      · subst heq
        apply ih₁
        simp only [Step.run, createIndex, finish] at hst
        obtain ⟨h1, h2⟩ := Prod.mk.inj hst
        subst h2
        have hnone : (mongo.createIndex w.db coll k o).2 = none := by
          cases hh : (mongo.createIndex w.db coll k o).2 with
          | none => rfl
          | some e => rw [hh] at h1; simp at h1
        exact mongoCreateIndex_creates hnone
      · exact ih₂ _ _ _ hmem

/-- Declarations whose collections exist and whose indexes are in place run to
the end on the model engine and leave the database as it was. -/
theorem runSteps_mongo_noop (l : List Step) (w : World Db)
    (hcoll : ∀ n, Step.createCollection n ∈ l → (w.db.find n).isSome)
    (hix : ∀ coll k o, Step.createIndex coll k o ∈ l → HasIndex w.db coll (declared k o)) :
    runSteps mongo l w =
      (.ok (), { w with out := w.out ++ stepLines l, log := w.log ++ okLog l }) := by
  induction l generalizing w with
  | nil => simp [runSteps, pure_apply, stepLines, okLog]
  | cons st l ih =>
    simp only [runSteps, bind_apply, Script.andThen]
    have hst : st.run mongo w =
        (.ok (), { w with out := w.out ++ stepLines [st], log := w.log ++ okLog [st] }) := by
      cases st with
      | say x => simp [Step.run, print, stepLines, okLog, Step.line, Step.call]
      | createCollection n =>
        have := hcoll n (List.mem_cons_self _ _)
        obtain ⟨c, hc⟩ := Option.isSome_iff_exists.1 this
        simp only [Step.run, createCollection, finish]
        have hm : mongo.createCollection w.db n = (w.db, none) := mongoCreateCollection_noop hc
        rw [hm]
        simp [stepLines, okLog, Step.line, Step.call]
      | createIndex c k o =>
        have := hix c k o (List.mem_cons_self _ _)
        simp only [Step.run, createIndex, finish]
        have hm : mongo.createIndex w.db c k o = (w.db, none) := mongoCreateIndex_noop this
        rw [hm]
        simp [stepLines, okLog, Step.line, Step.call]
    rw [hst]
    simp only []
    have := ih { w with out := w.out ++ stepLines [st], log := w.log ++ okLog [st] }
      (fun n hn => hcoll n (List.mem_cons_of_mem _ hn))
      (fun coll k o hm => hix coll k o (List.mem_cons_of_mem _ hm))
    rw [this]
    simp only [stepLines_cons st l, okLog_cons st l, List.append_assoc]

/-- The report never throws on the model engine and leaves the database as it
was. -/
theorem reportIndexes_mongo (w : World Db) :
    ∃ w', reportIndexes mongo w = (.ok (), w') ∧ w'.db = w.db ∧
      w'.log = w.log ++ [(.getIndexes "tenant_configurations", none),
        (.getIndexes "extracted_events", none)] := by
  rw [reportIndexes_apply]
  exact ⟨_, rfl, rfl, rfl⟩

/-- A run on the model engine that returns: the declarations returned, and the
database is what the seed insert left. -/
theorem run_mongo_returns {s : Db} {t₁ t₂ : Int} (h : (run mongo t₁ t₂ s).thrown = none) :
    ∃ w₁, declare mongo { db := s, out := [], log := [] } = (.ok (), w₁) ∧
      (run mongo t₁ t₂ s).db =
        (mongoInsertOne w₁.db "tenant_configurations" (demoTenant t₁ t₂)).1 := by
  simp only [run, exec_eq, script_apply] at h ⊢
  rcases hd : declare mongo { db := s, out := [], log := [] } with ⟨r₁, w₁⟩
  rw [hd] at h
  cases r₁ with
  | error e => simp at h
  | ok u =>
    obtain ⟨w₂, hr, hdb, _⟩ := reportIndexes_mongo w₁
    refine ⟨w₁, rfl, ?_⟩
    simp only [hr, banner_apply, seedDemoTenant_apply, hdb]
    rfl

/-- In a database left by a run that returned, every declared index is in
place. -/
theorem run_mongo_hasIndex {s : Db} {t₁ t₂ : Int} (h : (run mongo t₁ t₂ s).thrown = none)
    {coll : String} {k : KeySpec} {o : IndexOptions}
    (hmem : Step.createIndex coll k o ∈ declareSteps) :
    HasIndex (run mongo t₁ t₂ s).db coll (declared k o) := by
  obtain ⟨w₁, hd, hdb⟩ := run_mongo_returns h
  rw [hdb]
  apply mongoInsertOne_hasIndex
  rw [declare_eq_runSteps] at hd
  exact (runSteps_mongo_hasIndex _ _ _ hd).2 _ _ _ hmem

/-- Provisioning a database in which every declared index is in place changes
nothing and throws nothing. -/
theorem provision_mongo_noop (s : Db)
    (hix : ∀ coll k o, Step.createIndex coll k o ∈ declareSteps →
      HasIndex s coll (declared k o)) :
    ∃ out, provision mongo { db := s, out := [], log := [] } =
      (.ok (),
        { db := s
          out := out
          log := okLog declareSteps ++ [(.getIndexes "tenant_configurations", none),
            (.getIndexes "extracted_events", none)] }) := by
  have hcoll : ∀ n, Step.createCollection n ∈ declareSteps → (s.find n).isSome := by
    intro n hn
    have hn' : n = "tenant_configurations" ∨ n = "extracted_events" := by
      simpa [declareSteps] using hn
    rcases hn' with rfl | rfl
    · obtain ⟨c, hc, _⟩ := hix "tenant_configurations" [("tenantId", .dir 1)]
        { unique := true, name := "idx_tenant_id_unique" } (by simp [declareSteps])
      simp [hc]
    · obtain ⟨c, hc, _⟩ := hix "extracted_events" [("tenantId", .dir 1)]
        { name := "idx_tenant_id" } (by simp [declareSteps])
      simp [hc]
  have hd := runSteps_mongo_noop declareSteps { db := s, out := [], log := [] } hcoll hix
  simp only [provision, bind_apply, Script.andThen, declare_eq_runSteps, hd, List.nil_append]
  obtain ⟨w₂, hr, hdb, hlog⟩ := reportIndexes_mongo
    { db := s, out := stepLines declareSteps, log := okLog declareSteps }
  rw [hr]
  simp only [] at hdb hlog ⊢
  cases w₂ with
  | mk db out log =>
    simp only [] at hdb hlog
    subst hdb hlog
    exact ⟨out, rfl⟩

/-! ## Evaluating the script on the model engine -/

theorem declare_fresh :
    declare mongo { db := Db.empty, out := [], log := [] } =
      (.ok (), { db := provisioned [] [], out := stepLines declareSteps,
                 log := okLog declareSteps }) := by
  rfl

theorem insert_fresh (t₁ t₂ : Int) :
    mongoInsertOne (provisioned [] []) "tenant_configurations" (demoTenant t₁ t₂) =
      (provisioned [("_id", .objectId 1) :: demoTenant t₁ t₂] [], none) := by
  rfl

theorem insert_again (t₁ t₂ t₃ t₄ : Int) :
    mongoInsertOne (provisioned [("_id", .objectId 1) :: demoTenant t₁ t₂] [])
        "tenant_configurations" (demoTenant t₃ t₄) =
      (provisioned [("_id", .objectId 1) :: demoTenant t₁ t₂] [],
        some { code := .number 11000,
               message := "E11000 duplicate key error collection: tenant_configurations index: idx_tenant_id_unique" }) := by
  rfl

theorem tenantLines : tenantIndexes.map indexLine =
    [ "  - _id_: \x7b\"_id\":1\x7d",
      "  - idx_tenant_id_unique: \x7b\"tenantId\":1\x7d",
      "  - idx_active: \x7b\"active\":1\x7d",
      "  - idx_active_last_attempted: \x7b\"active\":1,\"lastAttemptedExtraction\":1\x7d",
      "  - idx_extraction_error: \x7b\"lastExtractionError\":1\x7d" ] := by
  rfl

theorem eventLines : eventIndexes.map indexLine =
    [ "  - _id_: \x7b\"_id\":1\x7d",
      "  - idx_tenant_id: \x7b\"tenantId\":1\x7d",
      "  - idx_event_id: \x7b\"eventId\":1\x7d",
      "  - idx_extracted_at: \x7b\"extractedAt\":1\x7d",
      "  - idx_status: \x7b\"status\":1\x7d",
      "  - idx_tenant_extracted_at: \x7b\"tenantId\":1,\"extractedAt\":1\x7d",
      "  - idx_tenant_event_unique: \x7b\"tenantId\":1,\"eventId\":1\x7d",
      "  - idx_status_retry: \x7b\"status\":1,\"retryCount\":1\x7d" ] := by
  rfl

theorem declare_again (tenants events : List Doc) (w : World Db)
    (h : w.db = provisioned tenants events) :
    declare mongo w =
      (.ok (),
        { w with
          out := w.out ++ stepLines declareSteps
          log := w.log ++ okLog declareSteps }) := by
  rw [declare_eq_runSteps]
  apply runSteps_mongo_noop
  · intro n hn
    have hn' : n = "tenant_configurations" ∨ n = "extracted_events" := by
      simpa [declareSteps] using hn
    rw [h]
    rcases hn' with rfl | rfl <;> rfl
  · intro coll k o hmem
    rw [h]
    simp only [declareSteps, List.mem_cons, Step.createIndex.injEq, List.mem_singleton, false_or, reduceCtorEq, List.not_mem_nil, or_false] at hmem
    rcases hmem with ⟨rfl, rfl, rfl⟩ | ⟨rfl, rfl, rfl⟩ | ⟨rfl, rfl, rfl⟩ | ⟨rfl, rfl, rfl⟩ |
      ⟨rfl, rfl, rfl⟩ | ⟨rfl, rfl, rfl⟩ | ⟨rfl, rfl, rfl⟩ | ⟨rfl, rfl, rfl⟩ | ⟨rfl, rfl, rfl⟩ |
      ⟨rfl, rfl, rfl⟩ | ⟨rfl, rfl, rfl⟩
    all_goals exact ⟨_, rfl, rfl⟩

theorem getIndexes_provisioned (tenants events : List Doc) :
    mongo.getIndexes (provisioned tenants events) "tenant_configurations" = .ok tenantIndexes ∧
    mongo.getIndexes (provisioned tenants events) "extracted_events" = .ok eventIndexes :=
  ⟨rfl, rfl⟩

theorem report_provisioned (tenants events : List Doc) (log : List (Call × Option JsError)) :
    reportIndexes mongo { db := provisioned tenants events, out := stepLines declareSteps,
                          log := log } =
      (.ok (),
        { db := provisioned tenants events
          out := reportLines
          log := log ++ [(.getIndexes "tenant_configurations", none),
            (.getIndexes "extracted_events", none)] }) := by
  rw [reportIndexes_apply]
  simp only [(getIndexes_provisioned tenants events).1, (getIndexes_provisioned tenants events).2,
    tenantLines, eventLines]
  rfl

theorem provision_fresh :
    provision mongo { db := Db.empty, out := [], log := [] } =
      (.ok (),
        { db := provisioned [] []
          out := reportLines
          log := okLog declareSteps ++ [(.getIndexes "tenant_configurations", none),
            (.getIndexes "extracted_events", none)] }) := by
  simp only [provision, bind_apply, Script.andThen, declare_fresh, report_provisioned]

theorem provision_again (tenants events : List Doc) :
    provision mongo { db := provisioned tenants events, out := [], log := [] } =
      (.ok (),
        { db := provisioned tenants events
          out := reportLines
          log := okLog declareSteps ++ [(.getIndexes "tenant_configurations", none),
            (.getIndexes "extracted_events", none)] }) := by
  simp only [provision, bind_apply, Script.andThen,
    declare_again tenants events { db := provisioned tenants events, out := [], log := [] } rfl,
    List.nil_append, report_provisioned]

theorem run_fresh (t₁ t₂ : Int) :
    run mongo t₁ t₂ Db.empty =
      { thrown := none
        db := provisioned [("_id", .objectId 1) :: demoTenant t₁ t₂] []
        out := reportLines ++
          [ "\nInserting sample tenant configuration...",
            "Sample tenant configuration created successfully.",
            "\nMongoDB setup completed successfully!",
            "Next steps:",
            "1. Update your application.properties with the MongoDB connection string",
            "2. Replace the demo API key with your real Gainsight PX API key",
            "3. Start your Spring Boot application" ]
        log := okLog declareSteps ++ [(.getIndexes "tenant_configurations", none),
            (.getIndexes "extracted_events", none),
            (.insertOne "tenant_configurations" (demoTenant t₁ t₂), none)] } := by
  have hi : mongo.insertOne (provisioned [] []) "tenant_configurations" (demoTenant t₁ t₂) =
      (provisioned [("_id", .objectId 1) :: demoTenant t₁ t₂] [], none) := insert_fresh t₁ t₂
  simp only [run, exec_eq, script_of_provision mongo t₁ t₂ _ _ provision_fresh,
    seedDemoTenant_apply, banner_apply, hi]
  simp

theorem run_again (t₁ t₂ t₃ t₄ : Int) :
    run mongo t₃ t₄ (provisioned [("_id", .objectId 1) :: demoTenant t₁ t₂] []) =
      { thrown := none
        db := provisioned [("_id", .objectId 1) :: demoTenant t₁ t₂] []
        out := reportLines ++
          [ "\nInserting sample tenant configuration...",
            "Sample tenant already exists, skipping.",
            "\nMongoDB setup completed successfully!",
            "Next steps:",
            "1. Update your application.properties with the MongoDB connection string",
            "2. Replace the demo API key with your real Gainsight PX API key",
            "3. Start your Spring Boot application" ]
        log := okLog declareSteps ++ [(.getIndexes "tenant_configurations", none),
            (.getIndexes "extracted_events", none),
            (.insertOne "tenant_configurations" (demoTenant t₃ t₄),
              some { code := .number 11000,
                     message := "E11000 duplicate key error collection: tenant_configurations index: idx_tenant_id_unique" })] } := by
  have hi : mongo.insertOne (provisioned [("_id", .objectId 1) :: demoTenant t₁ t₂] [])
      "tenant_configurations" (demoTenant t₃ t₄) = _ := insert_again t₁ t₂ t₃ t₄
  simp only [run, exec_eq, script_of_provision mongo t₃ t₄ _ _ (provision_again _ _),
    seedDemoTenant_apply, banner_apply, hi]
  simp

/-! ## Inserting into `extracted_events` -/

theorem idNumber_le_foldr (docs : List Doc) (d : Doc) (h : d ∈ docs) :
    idNumber d ≤ (docs.map idNumber).foldr max 0 := by
  induction docs with
  | nil => simp at h
  | cons d' docs ih =>
    simp only [List.map_cons, List.foldr_cons]
    rcases List.mem_cons.1 h with rfl | h
    · exact le_max_left _ _
    · exact le_trans (ih h) (le_max_right _ _)

/-- A generated `_id` is not the `_id` of a stored document. -/
theorem freshId_ne (docs : List Doc) (d : Doc) (h : d ∈ docs) :
    d.lookup "_id" ≠ some (.objectId (freshId docs)) := by
  intro heq
  have h₁ : idNumber d = freshId docs := by simp [idNumber, heq]
  have h₂ := idNumber_le_foldr docs d h
  unfold freshId at h₁
  omega

theorem violates_idIndex_fresh (docs : List Doc) (d : Doc) :
    violates idIndex docs (("_id", .objectId (freshId docs)) :: d) = false := by
  simp only [violates, idIndex, hasEntry, entries, keyOf]
  simp only [Bool.and_eq_false_imp]
  intro _
  simp only [List.contains_eq_any_beq, List.any_eq_false]
  intro k hk
  simp only [List.mem_map, List.mem_filter] at hk
  obtain ⟨d₀, ⟨hd₀, _⟩, rfl⟩ := hk
  have := freshId_ne docs d₀ hd₀
  simp only [keyOf, List.map_cons, List.map_nil, List.lookup_cons, beq_self_eq_true,
    Option.getD_some, beq_eq_false_iff_ne, ne_eq, List.cons.injEq, and_true]
  intro heq
  cases hl : List.lookup "_id" d₀ with
  | none => rw [hl] at heq; simp at heq
  | some v =>
    rw [hl] at heq this
    simp only [Option.getD_some] at heq
    have hv : JsValue.objectId (freshId docs) = v := by simpa using heq
    exact this (by rw [hv])


theorem declared_eventIndexes :
    ((exec (declare mongo) Db.empty).db.get "extracted_events").indexes = eventIndexes := by
  rw [exec_eq, declare_fresh]
  rfl

theorem entries_of_not_sparse (ix : IndexInfo) (docs : List Doc) (h : ix.sparse = false) :
    entries ix docs = docs.map (keyOf ix) := by
  have : ∀ d, hasEntry ix d = true := by intro d; simp [hasEntry, h]
  rw [entries, List.filter_eq_self.2 (fun d _ => this d)]

theorem violates_of_not_unique (ix : IndexInfo) (docs : List Doc) (d : Doc)
    (h : ix.unique = false) : violates ix docs d = false := by
  simp [violates, h]

/-- Among the indexes of `extracted_events`, only the compound unique index can
reject a document whose `_id` is generated. -/
theorem find?_violates_eventIndexes (docs : List Doc) (d : Doc) :
    eventIndexes.find? (fun ix => violates ix docs (("_id", .objectId (freshId docs)) :: d)) =
      if violates tenantEventIndex docs (("_id", .objectId (freshId docs)) :: d) then
        some tenantEventIndex
      else none := by
  cases h : violates tenantEventIndex docs (("_id", .objectId (freshId docs)) :: d)
  all_goals
    unfold tenantEventIndex at h
    simp only [eventIndexes, List.find?_cons, List.find?_nil, violates_idIndex_fresh, h,
      violates_of_not_unique]
    simp [tenantEventIndex]

theorem insert_event (s : Db) (d : Doc)
    (hix : (s.get "extracted_events").indexes = eventIndexes)
    (hid : d.lookup "_id" = none) :
    mongoInsertOne s "extracted_events" d =
      if violates tenantEventIndex (s.get "extracted_events").docs
            (("_id", .objectId (freshId (s.get "extracted_events").docs)) :: d) then
        (s, some (duplicateKey "extracted_events" tenantEventIndex))
      else
        (s.put { s.get "extracted_events" with
                 docs := (s.get "extracted_events").docs ++
                   [("_id", .objectId (freshId (s.get "extracted_events").docs)) :: d] }, none) := by
  unfold mongoInsertOne
  simp only [hix, withId, hid, Option.isSome_none, Bool.false_eq_true, if_false,
    find?_violates_eventIndexes]
  cases violates tenantEventIndex (s.get "extracted_events").docs
      (("_id", .objectId (freshId (s.get "extracted_events").docs)) :: d) <;> simp

theorem run_fresh_thrown : (run mongo 0 0 Db.empty).thrown = none := by
  rw [run_fresh]

theorem declaredIndexes_events :
    declaredIndexes "extracted_events" = eventIndexes.tail := by
  decide

theorem violates_tenantEventIndex (docs : List Doc) (d : Doc) :
    violates tenantEventIndex docs d = true ↔ ∃ d₀ ∈ docs, eventPair d₀ = eventPair d := by
  rw [violates, entries_of_not_sparse _ _ rfl]
  simp only [tenantEventIndex, hasEntry, keyOf, List.map_cons, List.map_nil,
    Bool.not_false, Bool.true_or, Bool.true_and,
    List.contains_eq_any_beq, List.any_eq_true, List.mem_map, eventPair, Prod.mk.injEq]
  constructor
  · rintro ⟨k, ⟨d₀, hd₀, rfl⟩, hk⟩
    have hk' := eq_of_beq hk
    simp only [List.cons.injEq, and_true] at hk'
    exact ⟨d₀, hd₀, hk'.1.symm, hk'.2.symm⟩
  · rintro ⟨d₀, hd₀, ht, he⟩
    exact ⟨_, ⟨d₀, hd₀, rfl⟩, by rw [ht, he]; exact beq_self_eq_true _⟩

theorem eventPair_cons_id (v : JsValue) (d : Doc) : eventPair (("_id", v) :: d) = eventPair d := by
  have h₁ : ("tenantId" == "_id") = false := by decide
  have h₂ : ("eventId" == "_id") = false := by decide
  simp [eventPair, List.lookup_cons, h₁, h₂]

theorem provision_fresh_thrown : (exec (provision mongo) Db.empty).thrown = none := by
  rw [exec_eq, provision_fresh]

theorem insert_event_iff (s : Db) (d : Doc)
    (hix : (s.get "extracted_events").indexes = eventIndexes)
    (hid : d.lookup "_id" = none) :
    ((mongoInsertOne s "extracted_events" d).2 =
        some (duplicateKey "extracted_events" tenantEventIndex) ↔
      ∃ d₀ ∈ (s.get "extracted_events").docs, eventPair d₀ = eventPair d) ∧
    ((mongoInsertOne s "extracted_events" d).2 = none ↔
      ¬ ∃ d₀ ∈ (s.get "extracted_events").docs, eventPair d₀ = eventPair d) := by
  rw [insert_event s d hix hid]
  have hv := violates_tenantEventIndex (s.get "extracted_events").docs
    (("_id", .objectId (freshId (s.get "extracted_events").docs)) :: d)
  simp only [eventPair_cons_id] at hv
  cases hb : violates tenantEventIndex (s.get "extracted_events").docs
      (("_id", .objectId (freshId (s.get "extracted_events").docs)) :: d)
  · rw [hb] at hv
    have hn : ¬ ∃ d₀ ∈ (s.get "extracted_events").docs, eventPair d₀ = eventPair d :=
      fun h => by simpa using hv.2 h
    simp [hn]
  · rw [hb] at hv
    have hy : ∃ d₀ ∈ (s.get "extracted_events").docs, eventPair d₀ = eventPair d := hv.1 rfl
    simp [hy]

theorem insert_event_state (s : Db) (d : Doc)
    (hix : (s.get "extracted_events").indexes = eventIndexes)
    (hid : d.lookup "_id" = none)
    (hnew : ¬ ∃ d₀ ∈ (s.get "extracted_events").docs, eventPair d₀ = eventPair d) :
    ((mongoInsertOne s "extracted_events" d).1.get "extracted_events").indexes = eventIndexes ∧
    ((mongoInsertOne s "extracted_events" d).1.get "extracted_events").docs =
      (s.get "extracted_events").docs ++
        [("_id", .objectId (freshId (s.get "extracted_events").docs)) :: d] := by
  rw [insert_event s d hix hid]
  have hv := violates_tenantEventIndex (s.get "extracted_events").docs
    (("_id", .objectId (freshId (s.get "extracted_events").docs)) :: d)
  simp only [eventPair_cons_id] at hv
  cases hb : violates tenantEventIndex (s.get "extracted_events").docs
      (("_id", .objectId (freshId (s.get "extracted_events").docs)) :: d)
  · simp [Db.get_put, Db.get_name, hix]
  · rw [hb] at hv
    exact absurd (hv.1 rfl) hnew

theorem any_violates_declared (docs : List Doc) (d : Doc) :
    (declaredIndexes "extracted_events").any (fun ix => violates ix docs d) = true ↔
      ∃ d₀ ∈ docs, eventPair d₀ = eventPair d := by
  rw [declaredIndexes_events, ← violates_tenantEventIndex]
  cases h : violates tenantEventIndex docs d
  all_goals
    unfold tenantEventIndex at h
    simp only [eventIndexes, List.tail_cons, List.any_cons, List.any_nil, h,
      violates_of_not_unique]
    simp

/-! ## The report and the log on the model engine -/

theorem HasIndex.mem_getIndexes {s : Db} {coll : String} {ix : IndexInfo}
    (h : HasIndex s coll ix) : ∃ l, mongo.getIndexes s coll = .ok l ∧ ix ∈ l := by
  obtain ⟨c, hc, hix⟩ := h
  refine ⟨c.indexes, ?_, List.mem_of_find?_eq_some hix⟩
  show mongoGetIndexes s coll = _
  simp [mongoGetIndexes, hc]

/-- On the model engine the report shows every index that was in place before
the run, when the declarations return. -/
theorem report_shows_index (s : Db) (coll : String) (ix : IndexInfo)
    (hcoll : coll = "tenant_configurations" ∨ coll = "extracted_events")
    (h : HasIndex s coll ix) (hret : (exec (declare mongo) s).thrown = none) :
    indexLine ix ∈ (exec (provision mongo) s).out := by
  rw [exec_eq] at hret
  rw [exec_eq]
  simp only [provision, bind_apply, Script.andThen]
  rcases hd : declare mongo { db := s, out := [], log := [] } with ⟨r, w₁⟩
  rw [hd] at hret
  cases r with
  | error e => simp at hret
  | ok u =>
    simp only []
    have hd' := hd
    rw [declare_eq_runSteps] at hd'
    have hix := (runSteps_mongo_hasIndex _ _ _ hd').1 coll ix h
    rw [reportIndexes_apply]
    have h₁ : ∃ l₁, mongo.getIndexes w₁.db "tenant_configurations" = .ok l₁ :=
      ⟨_, rfl⟩
    have h₂ : ∃ l₂, mongo.getIndexes w₁.db "extracted_events" = .ok l₂ := ⟨_, rfl⟩
    obtain ⟨l₁, h₁⟩ := h₁
    obtain ⟨l₂, h₂⟩ := h₂
    obtain ⟨l, hl, hmem⟩ := hix.mem_getIndexes
    rw [h₁, h₂]
    simp only [List.mem_append, List.mem_map]
    rcases hcoll with rfl | rfl
    · rw [h₁] at hl
      cases hl
      exact Or.inl (Or.inl (Or.inr ⟨ix, hmem, rfl⟩))
    · rw [h₂] at hl
      cases hl
      exact Or.inr ⟨ix, hmem, rfl⟩

theorem declare_foreign_thrown : (exec (declare mongo) foreignDb).thrown = none := by
  rfl

theorem foreign_line :
    indexLine { name := "legacy_company", key := [("companyName", .dir (-1))],
                unique := false, sparse := false }
      = "  - legacy_company: \x7b\"companyName\":-1\x7d" := by
  rfl

theorem foreign_notes_line :
    indexLine { name := "legacy_notes"
                key := [("note\"s\\x\n\x01", .kind "text"), ("weight", .other "1.5")]
                unique := false, sparse := false }
      = "  - legacy_notes: \x7b\"note\\\"s\\\\x\\n\\u0001\":\"text\",\"weight\":1.5\x7d" := by
  rfl

theorem quote_escapes :
    JSON.quote "a\"\\\x08\x0c\n\r\t\x1f\x7fé" = "\"a\\\"\\\\\\b\\f\\n\\r\\t\\u001f\x7fé\"" := by
  rfl

theorem createIndex_mem_declareSteps {σ : Type} (E : Engine σ) (t₁ t₂ : Int) (s : σ)
    (p : Call × Option JsError) (hp : p ∈ (run E t₁ t₂ s).log)
    (coll : String) (k : KeySpec) (o : IndexOptions) (hc : p.1 = .createIndex coll k o) :
    Step.createIndex coll k o ∈ declareSteps := by
  have key : ∀ l : List Step, (∃ st ∈ l, st.call = some (Call.createIndex coll k o)) →
      Step.createIndex coll k o ∈ l := by
    rintro l ⟨st, hst, hcall⟩
    cases st <;> simp [Step.call] at hcall
    obtain ⟨rfl, rfl, rfl⟩ := hcall
    exact hst
  rcases run_log E t₁ t₂ s with
    ⟨e', pre, st, post, c, hpre, hcall, -, -, hlog⟩ | ⟨tail, hlog, htail⟩
  · rw [hlog] at hp
    rw [hpre]
    rcases List.mem_append.1 hp with hp | hp
    · obtain ⟨_, st', hst', hcall'⟩ := mem_okLog hp
      rw [hc] at hcall'
      exact List.mem_append_left _ (key pre ⟨st', hst', hcall'⟩)
    · have : p = (c, some e') := by simpa using hp
      subst this
      simp only at hc
      subst hc
      exact key _ ⟨st, by simp, hcall⟩
  · rw [hlog] at hp
    rcases List.mem_append.1 hp with hp | hp
    · obtain ⟨_, st', hst', hcall'⟩ := mem_okLog hp
      rw [hc] at hcall'
      exact key _ ⟨st', hst', hcall'⟩
    · rcases htail _ hp with ⟨n, hn⟩ | ⟨n, d, hn⟩ <;> rw [hc] at hn <;> simp at hn

theorem sparse_mem_declareSteps {coll : String} {k : KeySpec} {o : IndexOptions}
    (h : Step.createIndex coll k o ∈ declareSteps) (hs : o.sparse = true) :
    o.name = "idx_extraction_error" := by
  simp only [declareSteps, List.mem_cons, Step.createIndex.injEq, List.mem_singleton, false_or,
    reduceCtorEq, List.not_mem_nil, or_false] at h
  rcases h with ⟨-, -, rfl⟩ | ⟨-, -, rfl⟩ | ⟨-, -, rfl⟩ | ⟨-, -, rfl⟩ | ⟨-, -, rfl⟩ |
    ⟨-, -, rfl⟩ | ⟨-, -, rfl⟩ | ⟨-, -, rfl⟩ | ⟨-, -, rfl⟩ | ⟨-, -, rfl⟩ | ⟨-, -, rfl⟩
  all_goals first | rfl | simp at hs

/-! ## The claims -/

/-- C1. The seed step (lines 94-118) on any engine and in any world: it never
throws; after the announcement it prints exactly one line, chosen by the outcome
of `insertOne`: the success line if the call returned, the skip line if it threw
an error whose `code` is the number 11000, and otherwise the error line ending
in `e.message`.  The database is what the call left and the call is logged
once. -/
theorem seed_reports_outcome {σ : Type} (E : Engine σ) (t₁ t₂ : Int) (w : World σ) :
    seedDemoTenant E t₁ t₂ w =
      (.ok (),
        { db := (E.insertOne w.db "tenant_configurations" (demoTenant t₁ t₂)).1
          out := w.out ++ ["\nInserting sample tenant configuration...",
            match (E.insertOne w.db "tenant_configurations" (demoTenant t₁ t₂)).2 with
            | none => "Sample tenant configuration created successfully."
            | some e =>
              if e.code = .number 11000 then "Sample tenant already exists, skipping."
              else "Error creating sample tenant: " ++ e.message]
          log := w.log ++ [(.insertOne "tenant_configurations" (demoTenant t₁ t₂),
            (E.insertOne w.db "tenant_configurations" (demoTenant t₁ t₂)).2)] }) :=
  seedDemoTenant_apply E t₁ t₂ w

/-- C2. A run on the fresh empty database of the model engine returns and
leaves exactly the two collections: `tenant_configurations` with the primary-key
index and the four declared indexes, holding the demo tenant alone (with
`tenantId` "demo-tenant" and `active` false), and `extracted_events` with the
primary-key index and the seven declared indexes, holding no document; all keys
are ascending. -/
theorem fresh_run_state (t₁ t₂ : Int) :
    (run mongo t₁ t₂ Db.empty).thrown = none ∧
    (run mongo t₁ t₂ Db.empty).db =
      { colls :=
          [ { name := "tenant_configurations"
              indexes :=
                [ { name := "_id_", key := [("_id", .dir 1)], unique := true, sparse := false },
                  { name := "idx_tenant_id_unique", key := [("tenantId", .dir 1)],
                    unique := true, sparse := false },
                  { name := "idx_active", key := [("active", .dir 1)],
                    unique := false, sparse := false },
                  { name := "idx_active_last_attempted",
                    key := [("active", .dir 1), ("lastAttemptedExtraction", .dir 1)],
                    unique := false, sparse := false },
                  { name := "idx_extraction_error", key := [("lastExtractionError", .dir 1)],
                    unique := false, sparse := true } ]
              docs := [("_id", .objectId 1) :: demoTenant t₁ t₂] },
            { name := "extracted_events"
              indexes :=
                [ { name := "_id_", key := [("_id", .dir 1)], unique := true, sparse := false },
                  { name := "idx_tenant_id", key := [("tenantId", .dir 1)],
                    unique := false, sparse := false },
                  { name := "idx_event_id", key := [("eventId", .dir 1)],
                    unique := false, sparse := false },
                  { name := "idx_extracted_at", key := [("extractedAt", .dir 1)],
                    unique := false, sparse := false },
                  { name := "idx_status", key := [("status", .dir 1)],
                    unique := false, sparse := false },
                  { name := "idx_tenant_extracted_at",
                    key := [("tenantId", .dir 1), ("extractedAt", .dir 1)],
                    unique := false, sparse := false },
                  { name := "idx_tenant_event_unique",
                    key := [("tenantId", .dir 1), ("eventId", .dir 1)],
                    unique := true, sparse := false },
                  { name := "idx_status_retry",
                    key := [("status", .dir 1), ("retryCount", .dir 1)],
                    unique := false, sparse := false } ]
              docs := [] } ] } ∧
    ((run mongo t₁ t₂ Db.empty).db.get "tenant_configurations").docs.map
        (fun d => (d.lookup "tenantId", d.lookup "active")) =
      [(some (.string "demo-tenant"), some (.bool false))] := by
  rw [run_fresh]
  exact ⟨rfl, rfl, rfl⟩

/-- C3. On the model engine: in any database left by a run that returned,
steps 1-4 run again return, none of their fifteen calls (two `createCollection`,
eleven `createIndex`, two `getIndexes`) throws, and the database, hence the
indexes of both collections, is exactly as it was. -/
theorem rerun_provision_idempotent (s₀ : Db) (t₁ t₂ : Int)
    (h : (run mongo t₁ t₂ s₀).thrown = none) :
    (exec (provision mongo) (run mongo t₁ t₂ s₀).db).thrown = none ∧
    (∀ p ∈ (exec (provision mongo) (run mongo t₁ t₂ s₀).db).log, p.2 = none) ∧
    (exec (provision mongo) (run mongo t₁ t₂ s₀).db).log.length = 15 ∧
    (exec (provision mongo) (run mongo t₁ t₂ s₀).db).db = (run mongo t₁ t₂ s₀).db ∧
    mongoGetIndexes (exec (provision mongo) (run mongo t₁ t₂ s₀).db).db "tenant_configurations"
      = mongoGetIndexes (run mongo t₁ t₂ s₀).db "tenant_configurations" ∧
    mongoGetIndexes (exec (provision mongo) (run mongo t₁ t₂ s₀).db).db "extracted_events"
      = mongoGetIndexes (run mongo t₁ t₂ s₀).db "extracted_events" := by
  obtain ⟨out, hp⟩ := provision_mongo_noop (run mongo t₁ t₂ s₀).db
    (fun coll k o hmem => run_mongo_hasIndex h hmem)
  rw [exec_eq, hp]
  refine ⟨rfl, ?_, ?_, rfl, rfl, rfl⟩
  · intro p hp
    simp only [List.mem_append] at hp
    rcases hp with hp | hp
    · exact (mem_okLog hp).1
    · simp at hp
      rcases hp with rfl | rfl <;> rfl
  · simp [okLog, declareSteps, Step.call]

/-- Witness for C3: the database left by a run on the fresh empty database. -/
theorem rerun_provision_idempotent_witness :
    (run mongo 0 0 Db.empty).thrown = none ∧
    ((exec (provision mongo) (run mongo 0 0 Db.empty).db).thrown = none ∧
      (∀ p ∈ (exec (provision mongo) (run mongo 0 0 Db.empty).db).log, p.2 = none) ∧
      (exec (provision mongo) (run mongo 0 0 Db.empty).db).log.length = 15 ∧
      (exec (provision mongo) (run mongo 0 0 Db.empty).db).db = (run mongo 0 0 Db.empty).db ∧
      mongoGetIndexes (exec (provision mongo) (run mongo 0 0 Db.empty).db).db
          "tenant_configurations"
        = mongoGetIndexes (run mongo 0 0 Db.empty).db "tenant_configurations" ∧
      mongoGetIndexes (exec (provision mongo) (run mongo 0 0 Db.empty).db).db
          "extracted_events"
        = mongoGetIndexes (run mongo 0 0 Db.empty).db "extracted_events") :=
  ⟨run_fresh_thrown, rerun_provision_idempotent Db.empty 0 0 run_fresh_thrown⟩

/-- C4. Two runs in succession from the fresh empty database of the model
engine: the second run returns; its seed insert is rejected with the
duplicate-key error of index `idx_tenant_id_unique`; it prints the skip line and
no line that starts with "Error creating sample tenant: "; afterwards
`tenant_configurations` holds the one demo tenant of the first run, the database
is as the first run left it, and no index name occurs twice in a collection. -/
theorem second_run_skips_seed (t₁ t₂ t₃ t₄ : Int) :
    (run mongo t₃ t₄ (run mongo t₁ t₂ Db.empty).db).thrown = none ∧
    (run mongo t₃ t₄ (run mongo t₁ t₂ Db.empty).db).log.getLast? =
      some (.insertOne "tenant_configurations" (demoTenant t₃ t₄),
        some { code := .number 11000,
               message := "E11000 duplicate key error collection: tenant_configurations index: idx_tenant_id_unique" }) ∧
    "Sample tenant already exists, skipping." ∈
      (run mongo t₃ t₄ (run mongo t₁ t₂ Db.empty).db).out ∧
    (∀ msg : String, "Error creating sample tenant: " ++ msg ∉
      (run mongo t₃ t₄ (run mongo t₁ t₂ Db.empty).db).out) ∧
    ((run mongo t₃ t₄ (run mongo t₁ t₂ Db.empty).db).db.get "tenant_configurations").docs =
      [("_id", .objectId 1) :: demoTenant t₁ t₂] ∧
    (run mongo t₃ t₄ (run mongo t₁ t₂ Db.empty).db).db = (run mongo t₁ t₂ Db.empty).db ∧
    (∀ c ∈ (run mongo t₃ t₄ (run mongo t₁ t₂ Db.empty).db).db.colls,
      (c.indexes.map fun ix => ix.name).Nodup) := by
  rw [run_fresh]
  simp only []
  rw [run_again]
  refine ⟨rfl, ?_, ?_, ?_, rfl, rfl, ?_⟩
  · simp
  · simp [reportLines]
  · intro msg hmem
    simp only [reportLines, List.cons_append, List.nil_append, List.mem_cons, List.mem_singleton,
      List.not_mem_nil, or_false] at hmem
    have key : ∀ s : String, s.data.head? ≠ some 'E' →
        "Error creating sample tenant: " ++ msg ≠ s := by
      intro s hs heq
      apply hs
      rw [← heq]
      simp [String.data_append]
    rcases hmem with h | h | h | h | h | h | h | h | h | h | h | h | h | h | h | h | h | h | h |
      h | h | h | h | h
    all_goals exact key _ (by decide) h
  · intro c hc
    simp only [provisioned, List.mem_cons, List.mem_singleton, List.not_mem_nil, or_false] at hc
    rcases hc with rfl | rfl
    · show (tenantIndexes.map fun ix => ix.name).Nodup
      decide
    · show (eventIndexes.map fun ix => ix.name).Nodup
      decide

/-- C5. On the model engine, for a database whose `extracted_events` collection
has the indexes the script's declarations give a new collection, and a new
document `d` whose `_id` the engine generates: the insert is rejected, with the
duplicate-key error of `idx_tenant_event_unique`, exactly when a stored document
has the `(tenantId, eventId)` pair of `d`, and it returns exactly when none has.
Among the seven declared indexes only `idx_tenant_event_unique` is unique, and
for every document they flag a violation exactly when a stored document has its
pair.  A second document with another `tenantId`, whatever its `eventId`, is
accepted after `d` when no stored document has the pair of either. -/
theorem event_uniqueness_scoped_to_pair (s : Db) (d : Doc)
    (hix : (s.get "extracted_events").indexes =
      ((exec (declare mongo) Db.empty).db.get "extracted_events").indexes)
    (hid : d.lookup "_id" = none) :
    ((mongoInsertOne s "extracted_events" d).2 =
        some { code := .number 11000,
               message := "E11000 duplicate key error collection: extracted_events index: idx_tenant_event_unique" } ↔
      ∃ d₀ ∈ (s.get "extracted_events").docs, eventPair d₀ = eventPair d) ∧
    ((mongoInsertOne s "extracted_events" d).2 = none ↔
      ¬ ∃ d₀ ∈ (s.get "extracted_events").docs, eventPair d₀ = eventPair d) ∧
    (∀ ix ∈ declaredIndexes "extracted_events",
      ix.unique = true → ix.name = "idx_tenant_event_unique") ∧
    (∀ (docs : List Doc) (d' : Doc),
      (declaredIndexes "extracted_events").any (fun ix => violates ix docs d') = true ↔
        ∃ d₀ ∈ docs, eventPair d₀ = eventPair d') ∧
    (∀ d₂ : Doc, d₂.lookup "_id" = none →
      (eventPair d).1 ≠ (eventPair d₂).1 →
      (¬ ∃ d₀ ∈ (s.get "extracted_events").docs, eventPair d₀ = eventPair d) →
      (¬ ∃ d₀ ∈ (s.get "extracted_events").docs, eventPair d₀ = eventPair d₂) →
      (mongoInsertOne s "extracted_events" d).2 = none ∧
      (mongoInsertOne (mongoInsertOne s "extracted_events" d).1 "extracted_events" d₂).2
        = none) := by
  rw [declared_eventIndexes] at hix
  refine ⟨(insert_event_iff s d hix hid).1, (insert_event_iff s d hix hid).2, ?_,
    any_violates_declared, ?_⟩
  · rw [declaredIndexes_events]
    decide
  · intro d₂ hid₂ hne hnew hnew₂
    obtain ⟨hix', hdocs'⟩ := insert_event_state s d hix hid hnew
    refine ⟨(insert_event_iff s d hix hid).2.2 hnew, ?_⟩
    apply (insert_event_iff _ d₂ hix' hid₂).2.2
    rw [hdocs']
    rintro ⟨d₀, hd₀, hpair⟩
    rcases List.mem_append.1 hd₀ with hd₀ | hd₀
    · exact hnew₂ ⟨d₀, hd₀, hpair⟩
    · have : d₀ = ("_id", .objectId (freshId (s.get "extracted_events").docs)) :: d := by
        simpa using hd₀
      subst this
      rw [eventPair_cons_id] at hpair
      exact hne (by rw [hpair])

/-- Witness for C5: one stored event of tenant "t1", and a new event of tenant
"t2" with the same `eventId`. -/
theorem event_uniqueness_scoped_to_pair_witness :
    (oneEvent.get "extracted_events").indexes =
      ((exec (declare mongo) Db.empty).db.get "extracted_events").indexes ∧
    ((mongoInsertOne oneEvent "extracted_events"
        [("tenantId", .string "t2"), ("eventId", .string "e1")]).2 = none ↔
      ¬ ∃ d₀ ∈ (oneEvent.get "extracted_events").docs,
        eventPair d₀ = eventPair [("tenantId", .string "t2"), ("eventId", .string "e1")]) :=
  ⟨declared_eventIndexes.symm,
    (event_uniqueness_scoped_to_pair oneEvent
      [("tenantId", .string "t2"), ("eventId", .string "e1")]
      declared_eventIndexes.symm rfl).2.1⟩

/-- C6. On any engine: if a `createIndex` call of a run threw `e`, then the run
ended with `e` uncaught, that call is the last database call of the run (no
later index was created), no `getIndexes` and no `insertOne` call was made (no
report, no seed insert), and nothing was printed but the two announcements of
the index phases (no report line, no seed line, no banner). -/
theorem createIndex_failure_stops_run {σ : Type} (E : Engine σ) (t₁ t₂ : Int) (s : σ)
    (coll : String) (key : KeySpec) (opts : IndexOptions) (e : JsError)
    (h : (Call.createIndex coll key opts, some e) ∈ (run E t₁ t₂ s).log) :
    (run E t₁ t₂ s).thrown = some e ∧
    (run E t₁ t₂ s).log.getLast? = some (Call.createIndex coll key opts, some e) ∧
    (∀ p ∈ (run E t₁ t₂ s).log, (∀ n, p.1 ≠ .getIndexes n) ∧ (∀ n d, p.1 ≠ .insertOne n d)) ∧
    (∀ x ∈ (run E t₁ t₂ s).out, x = "Creating indexes for tenant_configurations..." ∨
      x = "Creating indexes for extracted_events...") := by
  rcases run_log E t₁ t₂ s with
    ⟨e', pre, st, post, c, hpre, hc, hthrown, hout, hlog⟩ | ⟨tail, hlog, htail⟩
  · rw [hlog] at h ⊢
    rw [hthrown, hout]
    have hlast : (Call.createIndex coll key opts, some e) = (c, some e') := by
      rcases List.mem_append.1 h with h | h
      · have := (mem_okLog h).1
        simp at this
      · simpa using h
    have hc' : c = Call.createIndex coll key opts := (Prod.mk.inj hlast).1.symm
    have he' : e' = e := by
      have := (Prod.mk.inj hlast).2
      simpa using this.symm
    subst hc' he'
    refine ⟨rfl, by simp, ?_, ?_⟩
    · intro p hp
      rcases List.mem_append.1 hp with hp | hp
      · obtain ⟨_, st', _, hst'⟩ := mem_okLog hp
        exact Step.call_ne hst'
      · have : p = (Call.createIndex coll key opts, some e') := by simpa using hp
        subst this
        simp
    · intro x hx
      apply say_mem_declareSteps
      rw [hpre]
      exact List.mem_append_left _ (mem_stepLines hx)
  · exfalso
    rw [hlog] at h
    rcases List.mem_append.1 h with h | h
    · have := (mem_okLog h).1
      simp at this
    · rcases htail _ h with ⟨n, hn⟩ | ⟨n, d, hn⟩ <;> simp at hn

/-- Witness for C6: on the model engine, with two tenants of the same
`tenantId` already stored, the unique index on `tenantId` fails with the
duplicate-key error and the run stops there. -/
theorem createIndex_failure_stops_run_witness :
    (Call.createIndex "tenant_configurations" [("tenantId", .dir 1)]
        { unique := true, name := "idx_tenant_id_unique" },
      some (duplicateKey "tenant_configurations" (declared [("tenantId", .dir 1)]
        { unique := true, name := "idx_tenant_id_unique" })))
      ∈ (run mongo 0 0 duplicateTenants).log ∧
    ((run mongo 0 0 duplicateTenants).thrown =
        some (duplicateKey "tenant_configurations" (declared [("tenantId", .dir 1)]
          { unique := true, name := "idx_tenant_id_unique" })) ∧
      (run mongo 0 0 duplicateTenants).log.getLast? =
        some (Call.createIndex "tenant_configurations" [("tenantId", .dir 1)]
            { unique := true, name := "idx_tenant_id_unique" },
          some (duplicateKey "tenant_configurations" (declared [("tenantId", .dir 1)]
            { unique := true, name := "idx_tenant_id_unique" }))) ∧
      (∀ p ∈ (run mongo 0 0 duplicateTenants).log,
        (∀ n, p.1 ≠ .getIndexes n) ∧ (∀ n d, p.1 ≠ .insertOne n d)) ∧
      (∀ x ∈ (run mongo 0 0 duplicateTenants).out,
        x = "Creating indexes for tenant_configurations..." ∨
        x = "Creating indexes for extracted_events...")) :=
  ⟨by decide, createIndex_failure_stops_run mongo 0 0 duplicateTenants _ _ _ _ (by decide)⟩

/-- C7. On any engine: if the provisioning phase (steps 1-4) returns, so that
the seed step is reached, then the run returns, and its output is the output of
the provisioning phase, the seed announcement, one seed message, and the five
banner lines, whatever the seed insert did. -/
theorem banner_follows_seed {σ : Type} (E : Engine σ) (t₁ t₂ : Int) (s : σ)
    (h : (exec (provision E) s).thrown = none) :
    (run E t₁ t₂ s).thrown = none ∧
    ∃ msg, (run E t₁ t₂ s).out =
      (exec (provision E) s).out ++
        [ "\nInserting sample tenant configuration...", msg,
          "\nMongoDB setup completed successfully!",
          "Next steps:",
          "1. Update your application.properties with the MongoDB connection string",
          "2. Replace the demo API key with your real Gainsight PX API key",
          "3. Start your Spring Boot application" ] := by
  rw [exec_eq] at h
  simp only [exec_eq, run]
  rcases hp : provision E { db := s, out := [], log := [] } with ⟨r, w₁⟩
  rw [hp] at h
  cases r with
  | error e => simp at h
  | ok u =>
    rw [script_of_provision E t₁ t₂ _ w₁ hp, banner_apply, seedDemoTenant_apply]
    exact ⟨rfl, _, by simp; rfl⟩

/-- Witness for C7: the fresh empty database of the model engine. -/
theorem banner_follows_seed_witness :
    (exec (provision mongo) Db.empty).thrown = none ∧
    ((run mongo 0 0 Db.empty).thrown = none ∧
      ∃ msg, (run mongo 0 0 Db.empty).out =
        (exec (provision mongo) Db.empty).out ++
          [ "\nInserting sample tenant configuration...", msg,
            "\nMongoDB setup completed successfully!",
            "Next steps:",
            "1. Update your application.properties with the MongoDB connection string",
            "2. Replace the demo API key with your real Gainsight PX API key",
            "3. Start your Spring Boot application" ]) :=
  ⟨provision_fresh_thrown, banner_follows_seed mongo 0 0 Db.empty provision_fresh_thrown⟩

/-- C8. The report phase (lines 83-92) on any engine and in any world prints,
after each header, one line per index that `getIndexes()` returned for that
collection, in the order returned, each line being "  - ", the index name, ": "
and the JSON encoding of its key; a throwing `getIndexes()` ends it.  On the
fresh empty database of the model engine that is five lines for
`tenant_configurations` and eight for `extracted_events`; and an index that was
in place before the run is shown as well, as `legacy_company` and
`legacy_notes` are.  The last two conjuncts fix the JSON encoding on a key whose
field name needs escapes and on a string holding every kind of character the
encoding treats apart. -/
theorem report_lists_current_indexes :
    (∀ (σ : Type) (E : Engine σ) (w : World σ),
      reportIndexes E w =
        match E.getIndexes w.db "tenant_configurations" with
        | .error e =>
          (.error e,
            { w with
              out := w.out ++ ["\nIndexes for tenant_configurations:"]
              log := w.log ++ [(.getIndexes "tenant_configurations", some e)] })
        | .ok l₁ =>
          match E.getIndexes w.db "extracted_events" with
          | .error e =>
            (.error e,
              { w with
                out := w.out ++ ["\nIndexes for tenant_configurations:"]
                  ++ l₁.map (fun index => "  - " ++ index.name ++ ": " ++ JSON.stringify index.key)
                  ++ ["\nIndexes for extracted_events:"]
                log := w.log ++ [(.getIndexes "tenant_configurations", none),
                  (.getIndexes "extracted_events", some e)] })
          | .ok l₂ =>
            (.ok (),
              { w with
                out := w.out ++ ["\nIndexes for tenant_configurations:"]
                  ++ l₁.map (fun index => "  - " ++ index.name ++ ": " ++ JSON.stringify index.key)
                  ++ ["\nIndexes for extracted_events:"]
                  ++ l₂.map (fun index => "  - " ++ index.name ++ ": " ++ JSON.stringify index.key)
                log := w.log ++ [(.getIndexes "tenant_configurations", none),
                  (.getIndexes "extracted_events", none)] })) ∧
    (∀ t₁ t₂ : Int, (run mongo t₁ t₂ Db.empty).out =
      [ "Creating indexes for tenant_configurations...",
        "Creating indexes for extracted_events...",
        "\nIndexes for tenant_configurations:",
        "  - _id_: \x7b\"_id\":1\x7d",
        "  - idx_tenant_id_unique: \x7b\"tenantId\":1\x7d",
        "  - idx_active: \x7b\"active\":1\x7d",
        "  - idx_active_last_attempted: \x7b\"active\":1,\"lastAttemptedExtraction\":1\x7d",
        "  - idx_extraction_error: \x7b\"lastExtractionError\":1\x7d",
        "\nIndexes for extracted_events:",
        "  - _id_: \x7b\"_id\":1\x7d",
        "  - idx_tenant_id: \x7b\"tenantId\":1\x7d",
        "  - idx_event_id: \x7b\"eventId\":1\x7d",
        "  - idx_extracted_at: \x7b\"extractedAt\":1\x7d",
        "  - idx_status: \x7b\"status\":1\x7d",
        "  - idx_tenant_extracted_at: \x7b\"tenantId\":1,\"extractedAt\":1\x7d",
        "  - idx_tenant_event_unique: \x7b\"tenantId\":1,\"eventId\":1\x7d",
        "  - idx_status_retry: \x7b\"status\":1,\"retryCount\":1\x7d",
        "\nInserting sample tenant configuration...",
        "Sample tenant configuration created successfully.",
        "\nMongoDB setup completed successfully!",
        "Next steps:",
        "1. Update your application.properties with the MongoDB connection string",
        "2. Replace the demo API key with your real Gainsight PX API key",
        "3. Start your Spring Boot application" ]) ∧
    (∀ (s : Db) (coll : String) (ix : IndexInfo),
      coll = "tenant_configurations" ∨ coll = "extracted_events" →
      HasIndex s coll ix → (exec (declare mongo) s).thrown = none →
      "  - " ++ ix.name ++ ": " ++ JSON.stringify ix.key ∈ (exec (provision mongo) s).out) ∧
    "  - legacy_company: \x7b\"companyName\":-1\x7d" ∈ (exec (provision mongo) foreignDb).out ∧
    "  - legacy_notes: \x7b\"note\\\"s\\\\x\\n\\u0001\":\"text\",\"weight\":1.5\x7d" ∈
      (exec (provision mongo) foreignDb).out ∧
    JSON.quote "a\"\\\x08\x0c\n\r\t\x1f\x7fé" = "\"a\\\"\\\\\\b\\f\\n\\r\\t\\u001f\x7fé\"" := by
  refine ⟨fun σ E w => reportIndexes_apply E w, fun t₁ t₂ => ?_,
    fun s coll ix hcoll h hret => report_shows_index s coll ix hcoll h hret, ?_, ?_,
    quote_escapes⟩
  · rw [run_fresh]
    rfl
  · rw [← foreign_line]
    exact report_shows_index foreignDb "tenant_configurations" _ (Or.inl rfl) ⟨_, rfl, rfl⟩
      declare_foreign_thrown
  · rw [← foreign_notes_line]
    exact report_shows_index foreignDb "tenant_configurations" _ (Or.inl rfl) ⟨_, rfl, rfl⟩
      declare_foreign_thrown

/-- C9. On any engine whose `createCollection` and `createIndex` leave the
documents of every collection as they are, and whose `insertOne` leaves them as
they are or adds one document, carrying the submitted fields, at the end of the
collection it is called on: after a run, whatever its outcome, the documents of
every collection are those from before the run, except that
`tenant_configurations` may hold one more document at the end, carrying the
fields of the demo tenant. -/
theorem documents_frame {σ : Type} (E : Engine σ) (docs : σ → String → List Doc)
    (hcc : ∀ s n c, docs (E.createCollection s n).1 c = docs s c)
    (hci : ∀ s n k o c, docs (E.createIndex s n k o).1 c = docs s c)
    (hins : ∀ s n d c, docs (E.insertOne s n d).1 c = docs s c ∨
      (c = n ∧ ∃ d', (∀ p ∈ d, p ∈ d') ∧ docs (E.insertOne s n d).1 c = docs s c ++ [d']))
    (t₁ t₂ : Int) (s : σ) (c : String) :
    docs (run E t₁ t₂ s).db c = docs s c ∨
    (c = "tenant_configurations" ∧ ∃ d', (∀ p ∈ demoTenant t₁ t₂, p ∈ d') ∧
      docs (run E t₁ t₂ s).db c = docs s c ++ [d']) := by
  have hdecl : ∀ c, docs (declare E { db := s, out := [], log := [] }).2.db c = docs s c := by
    rw [declare_eq_runSteps]
    exact runSteps_rel E (fun a b => ∀ c, docs b c = docs a c) (fun _ _ => rfl)
      (fun a b c hab hbc x => (hbc x).trans (hab x)) (fun s n c => hcc s n c)
      (fun s n k o c => hci s n k o c) declareSteps _
  rcases run_db E t₁ t₂ s with h | h
  · left; rw [h, hdecl]
  · rw [h]
    rcases hins (declare E { db := s, out := [], log := [] }).2.db "tenant_configurations"
      (demoTenant t₁ t₂) c with h' | ⟨hc, d', hd', h'⟩
    · left; rw [h', hdecl]
    · right; exact ⟨hc, d', hd', by rw [h', hdecl]⟩

/-- Witness for C9: the model engine, on a database that already holds two
tenants and on which the run stops at the first index. -/
theorem documents_frame_witness :
    (∀ s n c, ((mongo.createCollection s n).1.get c).docs = (s.get c).docs) ∧
    (∀ s n k o c, ((mongo.createIndex s n k o).1.get c).docs = (s.get c).docs) ∧
    (∀ s n d c, ((mongo.insertOne s n d).1.get c).docs = (s.get c).docs ∨
      (c = n ∧ ∃ d', (∀ p ∈ d, p ∈ d') ∧
        ((mongo.insertOne s n d).1.get c).docs = (s.get c).docs ++ [d'])) ∧
    (((run mongo 0 0 duplicateTenants).db.get "tenant_configurations").docs =
        (duplicateTenants.get "tenant_configurations").docs ∨
      ("tenant_configurations" = "tenant_configurations" ∧
        ∃ d', (∀ p ∈ demoTenant 0 0, p ∈ d') ∧
          ((run mongo 0 0 duplicateTenants).db.get "tenant_configurations").docs =
            (duplicateTenants.get "tenant_configurations").docs ++ [d'])) :=
  ⟨mongoCreateCollection_docs, mongoCreateIndex_docs, mongoInsertOne_docs,
    documents_frame mongo (fun s c => (s.get c).docs) mongoCreateCollection_docs
      mongoCreateIndex_docs mongoInsertOne_docs 0 0 duplicateTenants "tenant_configurations"⟩

/-- C10. On the model engine, in a database left by a run that returned:
`tenant_configurations` has the index `idx_extraction_error`, it is sparse, and
it has an entry for a document exactly when the document has the field
`lastExtractionError`; it has none for the demo tenant as stored; and every
`createIndex` call of the run that asked for a sparse index asked for
`idx_extraction_error`. -/
theorem sparse_index_entries (s₀ : Db) (t₁ t₂ : Int)
    (h : (run mongo t₁ t₂ s₀).thrown = none) :
    (∃ ix ∈ ((run mongo t₁ t₂ s₀).db.get "tenant_configurations").indexes,
      ix.name = "idx_extraction_error" ∧ ix.sparse = true ∧
      (∀ d : Doc, hasEntry ix d = true ↔ (d.lookup "lastExtractionError").isSome = true) ∧
      (∀ docs : List Doc, hasEntry ix (withId docs (demoTenant t₁ t₂)) = false)) ∧
    (∀ p ∈ (run mongo t₁ t₂ s₀).log, ∀ coll k o,
      p.1 = .createIndex coll k o → o.sparse = true → o.name = "idx_extraction_error") := by
  constructor
  · have hix := @run_mongo_hasIndex s₀ t₁ t₂ h
      "tenant_configurations" [("lastExtractionError", .dir 1)]
      { sparse := true, name := "idx_extraction_error" } (by simp [declareSteps])
    refine ⟨_, List.mem_of_find?_eq_some hix.get, rfl, rfl, ?_, ?_⟩
    · intro d
      simp [hasEntry, declared]
    · intro docs
      have hne : ("lastExtractionError" == "_id") = false := by decide
      simp [hasEntry, declared, withId, demoTenant, List.lookup_cons, hne]
  · intro p hp coll k o hc hs
    exact sparse_mem_declareSteps (createIndex_mem_declareSteps mongo t₁ t₂ s₀ p hp coll k o hc) hs

/-- Witness for C10: the run on the fresh empty database. -/
theorem sparse_index_entries_witness :
    (run mongo 0 0 Db.empty).thrown = none ∧
    ∃ ix ∈ ((run mongo 0 0 Db.empty).db.get "tenant_configurations").indexes,
      ix.name = "idx_extraction_error" ∧ ix.sparse = true ∧
      (∀ d : Doc, hasEntry ix d = true ↔ (d.lookup "lastExtractionError").isSome = true) ∧
      (∀ docs : List Doc, hasEntry ix (withId docs (demoTenant 0 0)) = false) :=
  ⟨run_fresh_thrown, (sparse_index_entries Db.empty 0 0 run_fresh_thrown).1⟩

end SetupMongodb
